import Mathlib

/-!
# DMA controller of NanoboyAdvance (`src/core/dma.cpp`)

A shallow embedding of `DMAController` (register interface, priority
arbitration, blank triggers and the transfer engine `Run`) together with
theorems about it.

Conventions of the embedding:

* machine integers are `Nat` (or `Int` for the signed address deltas and the
  execution budget); 32-bit wrap-around is written out where the source can
  overflow (`add32`, `not32`, the `mask + 1` of the length reload);
* channel ids and `dma_current` are `Nat`, the array `dma[4]` is a function
  `Nat → DMA`; only the indices `0..3` exist in the source, and theorems say
  `id < 4` where that matters;
* the declarations of `dma.hpp` and `cpu.hpp` are not among the sources: the
  enums are modelled from the spec, the mask tables and `INT_DMA0` are the
  parameter `Consts`, the bus primitives are the parameter `Bus`.
-/

namespace NanoboyAdvance

/-! ## Data model -/

/-- Modelled from the spec: the enum `DMAControl` of dma.hpp (missing from the
sources); the spec lists increment, decrement, fixed, increment-and-reload in
this order, which is also the column order of `modify_table` in `Run`. -/
inductive DMAControl where
  | DMA_INCREMENT
  | DMA_DECREMENT
  | DMA_FIXED
  | DMA_RELOAD
  deriving DecidableEq, Repr

/-- Modelled from the spec: the enum `DMATime` of dma.hpp (missing from the
sources); the spec lists immediate, vblank, hblank, special in this order. -/
inductive DMATime where
  | DMA_IMMEDIATE
  | DMA_VBLANK
  | DMA_HBLANK
  | DMA_SPECIAL
  deriving DecidableEq, Repr

/-- Modelled from the spec: the enum `DMASize` of dma.hpp (missing from the
sources); the spec lists halfword, word in this order. -/
inductive DMASize where
  | DMA_HWORD
  | DMA_WORD
  deriving DecidableEq, Repr

open DMAControl DMATime DMASize

/-- Integer value of a `DMAControl`, as the source uses it in shifts and as
an array index. -/
def DMAControl.toNat : DMAControl → Nat
  | DMA_INCREMENT => 0
  | DMA_DECREMENT => 1
  | DMA_FIXED => 2
  | DMA_RELOAD => 3

/-- The conversion `static_cast<DMAControl>(n)`; the source only applies it to
values in `0..3`. -/
def DMAControl.fromNat : Nat → DMAControl
  | 0 => DMA_INCREMENT
  | 1 => DMA_DECREMENT
  | 2 => DMA_FIXED
  | _ => DMA_RELOAD

/-- Integer value of a `DMATime`. -/
def DMATime.toNat : DMATime → Nat
  | DMA_IMMEDIATE => 0
  | DMA_VBLANK => 1
  | DMA_HBLANK => 2
  | DMA_SPECIAL => 3

/-- The conversion `static_cast<DMATime>(n)`; the source only applies it to
values in `0..3`. -/
def DMATime.fromNat : Nat → DMATime
  | 0 => DMA_IMMEDIATE
  | 1 => DMA_VBLANK
  | 2 => DMA_HBLANK
  | _ => DMA_SPECIAL

/-- Integer value of a `DMASize`. -/
def DMASize.toNat : DMASize → Nat
  | DMA_HWORD => 0
  | DMA_WORD => 1

/-- The conversion `static_cast<DMASize>(n)`; the source only applies it to
values in `0..1`. -/
def DMASize.fromNat : Nat → DMASize
  | 0 => DMA_HWORD
  | _ => DMA_WORD

/-- The latched working copies `dma[id].internal`. -/
structure Internal where
  length : Nat
  dst_addr : Nat
  src_addr : Nat
  deriving DecidableEq, Repr

/-- One channel, `dma[id]`. The field `repeat` of the source is `repeat_`
here, `repeat` being reserved in Lean. -/
structure DMA where
  enable : Bool
  repeat_ : Bool
  interrupt : Bool
  gamepak : Bool
  length : Nat
  dst_addr : Nat
  src_addr : Nat
  internal : Internal
  size : DMASize
  time : DMATime
  dst_cntl : DMAControl
  src_cntl : DMAControl
  deriving DecidableEq, Repr

/-- The controller state: the members of `DMAController` that dma.cpp uses. -/
structure DMAController where
  dma_hblank_mask : Nat
  dma_vblank_mask : Nat
  dma_run_set : Nat
  dma_current : Nat
  dma_interleaved : Bool
  dma : Nat → DMA

/-- The constants of the missing headers that dma.cpp reads: the three mask
tables of dma.hpp, indexed by channel, and `CPU::INT_DMA0`. They are a
parameter of the embedding. -/
structure Consts where
  s_dma_dst_mask : Nat → Nat
  s_dma_src_mask : Nat → Nat
  s_dma_len_mask : Nat → Nat
  INT_DMA0 : Nat

/-- Modelled from the spec: the part of the CPU collaborator (cpu.hpp, missing
from the sources) that dma.cpp touches: the execution budget `run_until`, the
interrupt-flag register `mmio.irq_if`, and whatever the bus primitives act on,
kept here as a flat memory. -/
structure CPU where
  run_until : Int
  irq_if : Nat
  memory : Nat → Nat

/-- The bus primitives of the CPU collaborator (cpu.hpp, missing from the
sources), a parameter of the embedding: each may change the CPU state in any
way (memory, budget, interrupt flags). `Run` calls all four with the access
class `ACCESS_SEQ`, so the class is not an argument. The primitives act on the
CPU state only; they do not re-enter the controller. -/
structure Bus where
  ReadWord : CPU → Nat → Nat × CPU
  ReadHalf : CPU → Nat → Nat × CPU
  WriteWord : CPU → Nat → Nat → CPU
  WriteHalf : CPU → Nat → Nat → CPU

/-- One call of a bus primitive made by `Run`: the unit size (`true` for a
word), the address, and the value read or written. -/
inductive BusEvent where
  | read (words : Bool) (addr : Nat) (value : Nat)
  | write (words : Bool) (addr : Nat) (value : Nat)
  deriving DecidableEq, Repr

/-! ## Machine arithmetic -/

/-- The complement `~x` of an `int`, as a 32-bit pattern. The source only
writes `m &= ~(1 << id)` with it, on bitsets of four channel bits. -/
def not32 (x : Nat) : Nat := 4294967295 - x % 4294967296

/-- The statement `a += d` on a `std::uint32_t` with a signed `int` delta. -/
def add32 (a : Nat) (d : Int) : Nat := (((a : Int) + d) % 4294967296).toNat

/-- The address `a + n * d` modulo `2^32`: what `n` executions of `a += d` make
of a 32-bit address `a`. -/
def addN32 (a : Nat) (d : Int) (n : Nat) : Nat :=
  (((a : Int) + (n : Int) * d) % 4294967296).toNat

/-- The conversion of an integer to `bool`. -/
def asBool (n : Nat) : Bool := n != 0

/-! ## The source functions -/

/-- The table `g_dma_from_bitset`: the channel of highest priority in a bitset. -/
def g_dma_from_bitset : List Int :=
  [-1, 0, 1, 0, 2, 0, 1, 0, 3, 0, 1, 0, 2, 0, 1, 0]

/-- The array access `g_dma_from_bitset[b]`. The source has no entry for
`b > 15`; the embedding reads `-1` there. -/
def dmaFromBitset (b : Nat) : Int := g_dma_from_bitset.getD b (-1)

/-- The state of one channel after `DMAController::Reset`. -/
def resetDMA : DMA :=
  { enable := false, repeat_ := false, interrupt := false, gamepak := false,
    length := 0, dst_addr := 0, src_addr := 0,
    internal := { length := 0, dst_addr := 0, src_addr := 0 },
    size := DMA_HWORD, time := DMA_IMMEDIATE,
    dst_cntl := DMA_INCREMENT, src_cntl := DMA_INCREMENT }

/-- The function `DMAController::Reset`. -/
def Reset : DMAController :=
  { dma_hblank_mask := 0, dma_vblank_mask := 0, dma_run_set := 0,
    dma_current := 0, dma_interleaved := false,
    dma := fun _ => resetDMA }

/-- The function `DMAController::Read`; the result is a `std::uint8_t`. -/
def Read (s : DMAController) (id : Nat) (offset : Int) : Nat :=
  match offset with
  | 10 =>
    (((s.dma id).dst_cntl.toNat <<< 5) ||| ((s.dma id).src_cntl.toNat <<< 7)) % 256
  | 11 =>
    (((s.dma id).src_cntl.toNat >>> 1) |||
      ((s.dma id).size.toNat <<< 2) |||
      ((s.dma id).time.toNat <<< 4) |||
      (if (s.dma id).repeat_ then 2 else 0) |||
      (if (s.dma id).gamepak then 8 else 0) |||
      (if (s.dma id).interrupt then 64 else 0) |||
      (if (s.dma id).enable then 128 else 0)) % 256
  | _ => 0

/-- The function `DMAController::MarkDMAForExecution`. -/
def MarkDMAForExecution (s : DMAController) (id : Nat) : DMAController :=
  let s1 : DMAController :=
    if s.dma_run_set = 0 then
      { s with dma_current := id }
    else if id < s.dma_current then
      { s with dma_current := id, dma_interleaved := true }
    else s
  { s1 with dma_run_set := s1.dma_run_set ||| (1 <<< id) }

/-- Replaces channel `id` of the controller. -/
def setDMA (s : DMAController) (id : Nat) (d : DMA) : DMAController :=
  { s with dma := Function.update s.dma id d }

/-- The latch of the length: `length & s_dma_len_mask[id]`, a zero result
becoming `s_dma_len_mask[id] + 1` (in 32 bits). -/
def latchLength (C : Consts) (id : Nat) (length : Nat) : Nat :=
  if length &&& C.s_dma_len_mask id = 0 then
    (C.s_dma_len_mask id + 1) % 4294967296
  else
    length &&& C.s_dma_len_mask id

/-- The field updates of case 11 of `Write` (DMAXCNT_H, high byte): the high
bit of the source control, the unit size, the timing mode and the four flags
are decoded from `value`. -/
def decodeCntH (d : DMA) (value : Nat) : DMA :=
  { d with
    src_cntl := DMAControl.fromNat ((d.src_cntl.toNat &&& 1) ||| ((value &&& 1) <<< 1)),
    size := DMASize.fromNat ((value >>> 2) &&& 1),
    time := DMATime.fromNat ((value >>> 4) &&& 3),
    repeat_ := asBool (value &&& 2),
    gamepak := asBool (value &&& 8),
    interrupt := asBool (value &&& 64),
    enable := asBool (value &&& 128) }

/-- The update of `dma_hblank_mask` and `dma_vblank_mask` in case 11 of
`Write`, from the new timing mode of channel `id`. -/
def updateBlankMasks (s : DMAController) (id : Nat) (time : DMATime) : DMAController :=
  if time = DMA_HBLANK then
    { s with dma_hblank_mask := s.dma_hblank_mask ||| (1 <<< id),
             dma_vblank_mask := s.dma_vblank_mask &&& not32 (1 <<< id) }
  else if time = DMA_VBLANK then
    { s with dma_hblank_mask := s.dma_hblank_mask &&& not32 (1 <<< id),
             dma_vblank_mask := s.dma_vblank_mask ||| (1 <<< id) }
  else
    { s with dma_hblank_mask := s.dma_hblank_mask &&& not32 (1 <<< id),
             dma_vblank_mask := s.dma_vblank_mask &&& not32 (1 <<< id) }

/-- The latch of case 11 of `Write`: the sanitized programmed values become
the internal state of the channel. -/
def latch (C : Consts) (id : Nat) (d : DMA) : DMA :=
  { d with
    internal :=
      { dst_addr := d.dst_addr &&& C.s_dma_dst_mask id,
        src_addr := d.src_addr &&& C.s_dma_src_mask id,
        length := latchLength C id d.length } }

/-- The case 11 (DMAXCNT_H, high byte) of `DMAController::Write`. -/
def WriteCntH (C : Consts) (s : DMAController) (id : Nat) (value : Nat) : DMAController :=
  let enable_previous := (s.dma id).enable
  let d := decodeCntH (s.dma id) value
  let s1 := updateBlankMasks s id d.time
  if !enable_previous && d.enable then
    let s2 := setDMA s1 id (latch C id d)
    if d.time = DMA_IMMEDIATE then MarkDMAForExecution s2 id else s2
  else
    setDMA s1 id d

/-- The function `DMAController::Write`; `value` is a `std::uint8_t`. -/
def Write (C : Consts) (s : DMAController) (id : Nat) (offset : Int) (value : Nat) :
    DMAController :=
  match offset with
  | 0 => setDMA s id { s.dma id with src_addr := ((s.dma id).src_addr &&& 0xFFFFFF00) ||| (value <<< 0) }
  | 1 => setDMA s id { s.dma id with src_addr := ((s.dma id).src_addr &&& 0xFFFF00FF) ||| (value <<< 8) }
  | 2 => setDMA s id { s.dma id with src_addr := ((s.dma id).src_addr &&& 0xFF00FFFF) ||| (value <<< 16) }
  | 3 => setDMA s id { s.dma id with src_addr := ((s.dma id).src_addr &&& 0x00FFFFFF) ||| (value <<< 24) }
  | 4 => setDMA s id { s.dma id with dst_addr := ((s.dma id).dst_addr &&& 0xFFFFFF00) ||| (value <<< 0) }
  | 5 => setDMA s id { s.dma id with dst_addr := ((s.dma id).dst_addr &&& 0xFFFF00FF) ||| (value <<< 8) }
  | 6 => setDMA s id { s.dma id with dst_addr := ((s.dma id).dst_addr &&& 0xFF00FFFF) ||| (value <<< 16) }
  | 7 => setDMA s id { s.dma id with dst_addr := ((s.dma id).dst_addr &&& 0x00FFFFFF) ||| (value <<< 24) }
  | 8 => setDMA s id { s.dma id with length := ((s.dma id).length &&& 0xFF00) ||| (value <<< 0) }
  | 9 => setDMA s id { s.dma id with length := ((s.dma id).length &&& 0x00FF) ||| (value <<< 8) }
  | 10 =>
    setDMA s id
      { s.dma id with
        dst_cntl := DMAControl.fromNat ((value >>> 5) &&& 3),
        src_cntl := DMAControl.fromNat (((s.dma id).src_cntl.toNat &&& 2) ||| (value >>> 7)) }
  | 11 => WriteCntH C s id value
  | _ => s

/-- The function `DMAController::TriggerHBlankDMA`. -/
def TriggerHBlankDMA (s : DMAController) : DMAController :=
  let hblank_dma := dmaFromBitset (s.dma_run_set &&& s.dma_hblank_mask)
  if hblank_dma ≥ 0 then MarkDMAForExecution s hblank_dma.toNat else s

/-- The function `DMAController::TriggerVBlankDMA`. -/
def TriggerVBlankDMA (s : DMAController) : DMAController :=
  let vblank_dma := dmaFromBitset (s.dma_run_set &&& s.dma_vblank_mask)
  if vblank_dma ≥ 0 then MarkDMAForExecution s vblank_dma.toNat else s

/-- The table `modify_table` of `Run`, rows indexed by the unit size and
columns by the address control. -/
def modify_table : List (List Int) :=
  [[2, -2, 0, 2],
   [4, -4, 0, 4]]

/-- The array access `modify_table[size][cntl]`. -/
def modify (size : DMASize) (cntl : DMAControl) : Int :=
  (modify_table.getD size.toNat []).getD cntl.toNat 0

/-- What a transfer loop of `Run` leaves behind: whether the loop ran to its
end (`length` reached zero) or left through one of its two `return`s, the
working copies of the channel, the preemption flag, the CPU state, and the bus
calls made, in order. -/
structure LoopResult where
  finished : Bool
  length : Nat
  src_addr : Nat
  dst_addr : Nat
  interleaved : Bool
  cpu : CPU
  trace : List BusEvent

/-- The bus read of one unit: `cpu->ReadWord(addr, ACCESS_SEQ)` in the word
loop, `cpu->ReadHalf(addr, ACCESS_SEQ)` in the halfword loop. -/
def busRead (B : Bus) (words : Bool) (cpu : CPU) (addr : Nat) : Nat × CPU :=
  if words then B.ReadWord cpu addr else B.ReadHalf cpu addr

/-- The bus write of one unit: `cpu->WriteWord(addr, word, ACCESS_SEQ)` in the
word loop, `cpu->WriteHalf(addr, word, ACCESS_SEQ)` in the halfword loop. -/
def busWrite (B : Bus) (words : Bool) (cpu : CPU) (addr : Nat) (word : Nat) : CPU :=
  if words then B.WriteWord cpu addr word else B.WriteHalf cpu addr word

/-- The CPU state after one unit: the read from `src_addr`, then the write of
the value read to `dst_addr`. -/
def unitCPU (B : Bus) (words : Bool) (cpu : CPU) (src_addr dst_addr : Nat) : CPU :=
  busWrite B words (busRead B words cpu src_addr).2 dst_addr (busRead B words cpu src_addr).1

/-- The loop `while (dma.internal.length != 0)` of `Run`. The source writes it
twice, once with `ReadWord`/`WriteWord` and once with `ReadHalf`/`WriteHalf`;
`words` selects the pair. The recursion is on `dma.internal.length`, which
every iteration decrements. -/
def transferLoop (B : Bus) (words : Bool) (src_modify dst_modify : Int) :
    Nat → Nat → Nat → Bool → CPU → LoopResult
  | 0, src_addr, dst_addr, interleaved, cpu =>
    { finished := true, length := 0, src_addr := src_addr, dst_addr := dst_addr,
      interleaved := interleaved, cpu := cpu, trace := [] }
  | length + 1, src_addr, dst_addr, interleaved, cpu =>
    if cpu.run_until ≤ 0 then
      { finished := false, length := length + 1, src_addr := src_addr, dst_addr := dst_addr,
        interleaved := interleaved, cpu := cpu, trace := [] }
    else if interleaved then
      { finished := false, length := length + 1, src_addr := src_addr, dst_addr := dst_addr,
        interleaved := false, cpu := cpu, trace := [] }
    else
      let word := (busRead B words cpu src_addr).1
      let r := transferLoop B words src_modify dst_modify length
        (add32 src_addr src_modify) (add32 dst_addr dst_modify) interleaved
        (unitCPU B words cpu src_addr dst_addr)
      { r with trace :=
          BusEvent.read words src_addr word :: BusEvent.write words dst_addr word :: r.trace }

/-- The CPU state after `k` units of a transfer loop that starts at `src_addr`,
`dst_addr` in the CPU state `cpu`: the state in which the loop makes its
budget check before unit `k` (counting from 0). -/
def cpuAfterUnits (B : Bus) (words : Bool) (src_modify dst_modify : Int) :
    Nat → Nat → Nat → CPU → CPU
  | 0, _, _, cpu => cpu
  | k + 1, src_addr, dst_addr, cpu =>
    cpuAfterUnits B words src_modify dst_modify k
      (add32 src_addr src_modify) (add32 dst_addr dst_modify)
      (unitCPU B words cpu src_addr dst_addr)

/-- Spec side of the full drain: the value that unit `k` (counting from 0) of a
copy moves, written with the bus primitives themselves: the result of the read
at `src + k * dSrc` (modulo `2^32`) in the CPU state `cpuK` reached before that
unit. -/
def specCopyWord (B : Bus) (words : Bool) (dSrc : Int) (src : Nat) (cpuK : CPU) (k : Nat) :
    Nat :=
  if words then (B.ReadWord cpuK (addN32 src dSrc k)).1
  else (B.ReadHalf cpuK (addN32 src dSrc k)).1

/-- Spec side of the full drain: the CPU state after `k` units of a copy that
starts in the state `cpu`, written with the bus primitives themselves and the
addresses in closed form: unit `k` reads at `src + k * dSrc` and writes the
value read to `dst + k * dDst` (modulo `2^32`), a word or a halfword. -/
def specCopyCPU (B : Bus) (words : Bool) (dSrc dDst : Int) (src dst : Nat) (cpu : CPU) :
    Nat → CPU
  | 0 => cpu
  | k + 1 =>
    if words then
      B.WriteWord (B.ReadWord (specCopyCPU B words dSrc dDst src dst cpu k) (addN32 src dSrc k)).2
        (addN32 dst dDst k)
        (specCopyWord B words dSrc src (specCopyCPU B words dSrc dDst src dst cpu k) k)
    else
      B.WriteHalf (B.ReadHalf (specCopyCPU B words dSrc dDst src dst cpu k) (addN32 src dSrc k)).2
        (addN32 dst dDst k)
        (specCopyWord B words dSrc src (specCopyCPU B words dSrc dDst src dst cpu k) k)

/-- What a call of `Run` leaves behind: the controller, the CPU state, the bus
calls made, in order, and whether the call reached the completion path (the
code after the loops) rather than one of the two `return`s. -/
structure RunResult where
  ctl : DMAController
  cpu : CPU
  trace : List BusEvent
  completed : Bool

/-- The completion path of `Run` on the channel `d` (the current channel as the
loop left it): the reload of a repeating channel or the disabling of a
non-repeating one; the second component is the new `dma_run_set`. -/
def completeDMA (C : Consts) (cur : Nat) (dst_cntl : DMAControl) (d : DMA) (run_set : Nat) :
    DMA × Nat :=
  if d.repeat_ then
    let d1 : DMA := { d with internal := { d.internal with length := latchLength C cur d.length } }
    let d2 : DMA :=
      if dst_cntl = DMA_RELOAD then
        { d1 with internal := { d1.internal with dst_addr := d1.dst_addr &&& C.s_dma_dst_mask cur } }
      else d1
    (d2, if d2.time ≠ DMA_IMMEDIATE then run_set &&& not32 (1 <<< cur) else run_set)
  else
    ({ d with enable := false }, run_set &&& not32 (1 <<< cur))

/-- The transfer loop of `Run` on the current channel: the locals `words`,
`src_modify` and `dst_modify` are computed from the channel as at the entry of
`Run`. -/
def runLoop (B : Bus) (s : DMAController) (cpu : CPU) : LoopResult :=
  let d := s.dma s.dma_current
  let src_cntl := d.src_cntl
  let dst_cntl := d.dst_cntl
  let words := decide (d.size = DMA_WORD)
  let src_modify := modify d.size src_cntl
  let dst_modify := modify d.size dst_cntl
  transferLoop B words src_modify dst_modify
    d.internal.length d.internal.src_addr d.internal.dst_addr s.dma_interleaved cpu

/-- The channel `d` with the working copies as the loop left them (the loop
updates `dma.internal` in place). -/
def afterLoop (d : DMA) (r : LoopResult) : DMA :=
  { d with internal := { length := r.length, dst_addr := r.dst_addr, src_addr := r.src_addr } }

/-- The statement `if (dma.interrupt) cpu->mmio.irq_if |= CPU::INT_DMA0 << dma_current`. -/
def raiseInterrupt (C : Consts) (cur : Nat) (d : DMA) (cpu : CPU) : CPU :=
  if d.interrupt then { cpu with irq_if := cpu.irq_if ||| (C.INT_DMA0 <<< cur) } else cpu

/-- The last statement of `Run`: with a non-empty run set, the channel of
highest priority in it becomes current. -/
def reselect (s : DMAController) : DMAController :=
  if 0 < s.dma_run_set then
    { s with dma_current := (dmaFromBitset s.dma_run_set).toNat }
  else s

/-- The function `DMAController::Run`. -/
def Run (C : Consts) (B : Bus) (s : DMAController) (cpu : CPU) : RunResult :=
  let cur := s.dma_current
  let d := s.dma cur
  let r := runLoop B s cpu
  let d1 := afterLoop d r
  if !r.finished then
    { ctl := { setDMA s cur d1 with dma_interleaved := r.interleaved },
      cpu := r.cpu, trace := r.trace, completed := false }
  else
    let c := completeDMA C cur d.dst_cntl d1 s.dma_run_set
    { ctl := reselect
        { setDMA s cur c.1 with dma_interleaved := r.interleaved, dma_run_set := c.2 },
      cpu := raiseInterrupt C cur d1 r.cpu, trace := r.trace, completed := true }

/-! ## Sequences of calls -/

/-- Successive calls of `Run` with nothing else touching the controller, up to
and including the first call that reaches the completion path. The caller
supplies the CPU state of every call (between two calls the CPU runs and its
budget is refilled). The result is the controller after the last call made and
whether that call completed. -/
def runUntilComplete (C : Consts) (B : Bus) : DMAController → List CPU → DMAController × Bool
  | s, [] => (s, false)
  | s, cpu :: rest =>
    if (Run C B s cpu).completed then ((Run C B s cpu).ctl, true)
    else runUntilComplete C B (Run C B s cpu).ctl rest

/-- One call into the controller: `Run` (with the CPU state the caller supplies),
the two blank triggers, a register write, or `MarkDMAForExecution`. -/
inductive Op where
  | run (cpu : CPU)
  | hblank
  | vblank
  | write (id : Nat) (offset : Int) (value : Nat)
  | mark (id : Nat)

/-- The controller after one call. -/
def step (C : Consts) (B : Bus) (s : DMAController) : Op → DMAController
  | Op.run cpu => (Run C B s cpu).ctl
  | Op.hblank => TriggerHBlankDMA s
  | Op.vblank => TriggerVBlankDMA s
  | Op.write id offset value => Write C s id offset value
  | Op.mark id => MarkDMAForExecution s id

/-- The controller after a sequence of calls, first call first. -/
def exec (C : Consts) (B : Bus) (s : DMAController) (ops : List Op) : DMAController :=
  ops.foldl (step C B) s

/-- Whether a call is `Run`, a blank trigger, or a register write other than a
control-high write to channel `id` with bit 7 set (the write that can rearm
channel `id`). -/
def Op.noRearm (id : Nat) : Op → Bool
  | Op.run _ => true
  | Op.hblank => true
  | Op.vblank => true
  | Op.write j offset value => !(decide (j = id) && decide (offset = 11) && value.testBit 7)
  | Op.mark _ => false

/-- Whether a call addresses an existing channel: the `id` of a register write
or of `MarkDMAForExecution` is in `0..3` (the source indexes `dma[4]` with it). -/
def Op.valid : Op → Bool
  | Op.write id _ _ => decide (id < 4)
  | Op.mark id => decide (id < 4)
  | _ => true

/-- The arbitration invariant: the run set has four bits, and when it is not
empty the current channel is its member of highest priority (a set bit with no
set bit below it). -/
def Arbitrated (s : DMAController) : Prop :=
  s.dma_run_set < 16 ∧
  (s.dma_run_set ≠ 0 →
    s.dma_run_set.testBit s.dma_current = true ∧
    ∀ j, j < s.dma_current → s.dma_run_set.testBit j = false)

/-- The blank-mask invariant: both masks have four bits, and for every channel
`id` in `0..3` bit `id` of `dma_hblank_mask` is set exactly when the timing mode
of the channel is hblank, and bit `id` of `dma_vblank_mask` exactly when it is
vblank. -/
def MasksSynced (s : DMAController) : Prop :=
  s.dma_hblank_mask < 16 ∧ s.dma_vblank_mask < 16 ∧
  ∀ id, id < 4 →
    (s.dma_hblank_mask.testBit id = true ↔ (s.dma id).time = DMA_HBLANK) ∧
    (s.dma_vblank_mask.testBit id = true ↔ (s.dma id).time = DMA_VBLANK)

/-- Whether a call made in state `s` is `Run`, a blank trigger, or a register
write to a channel in `0..3` that is not a control-high write with bit 7 clear
to a channel whose bit is set in the run set (a write that would disable a
scheduled channel). -/
def Op.keepsArmed (s : DMAController) : Op → Bool
  | Op.run _ => true
  | Op.hblank => true
  | Op.vblank => true
  | Op.write id offset value =>
    decide (id < 4) &&
      !(decide (offset = 11) && !value.testBit 7 && s.dma_run_set.testBit id)
  | Op.mark _ => false

/-- Whether every call of a sequence, made in the state the calls before it
lead to from `s`, satisfies `Op.keepsArmed`. -/
def allKeepArmed (C : Consts) (B : Bus) : DMAController → List Op → Bool
  | _, [] => true
  | s, op :: rest => op.keepsArmed s && allKeepArmed C B (step C B s op) rest

/-- The run set holds only armed channels: the current channel is in `0..3`,
the run set has four bits, and every channel whose bit is set is enabled. -/
def Armed (s : DMAController) : Prop :=
  s.dma_current < 4 ∧ s.dma_run_set < 16 ∧
  ∀ id, id < 4 → s.dma_run_set.testBit id = true → (s.dma id).enable = true

/-! ## Instances used by the concrete scenarios -/

/-- Modelled from the spec: the mask tables of dma.hpp are missing from the
sources and the spec only describes them (fixed channel-dependent widths,
channel 3 with the widest range, channel 0 unable to reach cartridge space).
This instance takes the widths of the hardware: 27-bit addresses except the
28-bit source of channels 1 to 3 and destination of channel 3, a 14-bit length
except the 16-bit length of channel 3; `INT_DMA0` is bit 8. It serves the
concrete scenarios only. -/
def gbaConsts : Consts :=
  { s_dma_dst_mask := fun id => if id = 3 then 0x0FFFFFFF else 0x07FFFFFF,
    s_dma_src_mask := fun id => if id = 0 then 0x07FFFFFF else 0x0FFFFFFF,
    s_dma_len_mask := fun id => if id = 3 then 0xFFFF else 0x3FFF,
    INT_DMA0 := 0x100 }

/-- Modelled from the spec: a bus for the concrete scenarios (the bus of
cpu.hpp is missing from the sources): a flat memory of one value per address,
reads return the stored value, writes store it, and no access costs budget. -/
def flatBus : Bus :=
  { ReadWord := fun cpu addr => (cpu.memory addr, cpu),
    ReadHalf := fun cpu addr => (cpu.memory addr % 65536, cpu),
    WriteWord := fun cpu addr v => { cpu with memory := Function.update cpu.memory addr v },
    WriteHalf := fun cpu addr v =>
      { cpu with memory := Function.update cpu.memory addr (v % 65536) } }

/-- A CPU state for the concrete scenarios: a budget of 100, no interrupt
pending, and a memory holding `a + 7` at address `a`. -/
def sampleCPU : CPU :=
  { run_until := 100, irq_if := 0, memory := fun a => a + 7 }

/-- A preemption scenario: after `Reset`, channel 2 is programmed with length 3
and enabled with immediate timing (it is scheduled and current); channel 0 is
programmed with length 2 and enabled with special timing, which latches it
without scheduling it. -/
def preemptScenario : DMAController :=
  let s := Write gbaConsts Reset 2 8 3
  let s := Write gbaConsts s 2 11 0x80
  let s := Write gbaConsts s 0 8 2
  Write gbaConsts s 0 11 0xB0

/-- A repeat scenario: after `Reset`, channel 3 is programmed with source
`0x02000000`, destination `0x03000000`, length 2, destination control
increment-and-reload, and enabled with repeat, halfword units and immediate
timing. -/
def repeatScenario : DMAController :=
  let s := Write gbaConsts Reset 3 3 0x02
  let s := Write gbaConsts s 3 7 0x03
  let s := Write gbaConsts s 3 8 2
  let s := Write gbaConsts s 3 10 0x60
  Write gbaConsts s 3 11 0x82

/-- The drain scenario of the spec: after `Reset`, channel 0 is programmed with
source `0x02000000`, destination `0x03000000`, length 4, increment/increment,
and enabled with word units and immediate timing, no repeat. -/
def drainScenario : DMAController :=
  let s := Write gbaConsts Reset 0 3 0x02
  let s := Write gbaConsts s 0 7 0x03
  let s := Write gbaConsts s 0 8 4
  let s := Write gbaConsts s 0 10 0
  Write gbaConsts s 0 11 0x84

/-- The hblank scenario of the spec: after `Reset`, channel 1 is programmed with
source `0x02000000`, destination `0x03000000`, length 4, destination control
increment-and-reload, and enabled (a 0->1 edge) with repeat and hblank timing. -/
def hblankScenario : DMAController :=
  let s := Write gbaConsts Reset 1 3 0x02
  let s := Write gbaConsts s 1 7 0x03
  let s := Write gbaConsts s 1 8 4
  let s := Write gbaConsts s 1 10 0x60
  Write gbaConsts s 1 11 0xA2

theorem asBool_and_128 (v : Nat) : asBool (v &&& 128) = v.testBit 7 := by
  have h := Nat.and_two_pow v 7
  simp only [asBool]
  rw [show (128 : Nat) = 2 ^ 7 by norm_num, h]
  cases v.testBit 7 <;> simp

@[simp] theorem setDMA_dma_same (s : DMAController) (id : Nat) (d : DMA) :
    (setDMA s id d).dma id = d := by
  simp [setDMA]

@[simp] theorem setDMA_dma_ne (s : DMAController) (id j : Nat) (d : DMA) (h : j ≠ id) :
    (setDMA s id d).dma j = s.dma j := by
  simp [setDMA, Function.update_noteq h]

@[simp] theorem setDMA_run_set (s : DMAController) (id : Nat) (d : DMA) :
    (setDMA s id d).dma_run_set = s.dma_run_set := rfl

@[simp] theorem setDMA_current (s : DMAController) (id : Nat) (d : DMA) :
    (setDMA s id d).dma_current = s.dma_current := rfl

@[simp] theorem setDMA_interleaved (s : DMAController) (id : Nat) (d : DMA) :
    (setDMA s id d).dma_interleaved = s.dma_interleaved := rfl

@[simp] theorem setDMA_hblank_mask (s : DMAController) (id : Nat) (d : DMA) :
    (setDMA s id d).dma_hblank_mask = s.dma_hblank_mask := rfl

@[simp] theorem setDMA_vblank_mask (s : DMAController) (id : Nat) (d : DMA) :
    (setDMA s id d).dma_vblank_mask = s.dma_vblank_mask := rfl

theorem setDMA_self (s : DMAController) (id : Nat) : setDMA s id (s.dma id) = s := by
  simp [setDMA]

@[simp] theorem mark_dma (s : DMAController) (id : Nat) :
    (MarkDMAForExecution s id).dma = s.dma := by
  unfold MarkDMAForExecution
  split_ifs <;> rfl

@[simp] theorem mark_hblank_mask (s : DMAController) (id : Nat) :
    (MarkDMAForExecution s id).dma_hblank_mask = s.dma_hblank_mask := by
  unfold MarkDMAForExecution
  split_ifs <;> rfl

@[simp] theorem mark_vblank_mask (s : DMAController) (id : Nat) :
    (MarkDMAForExecution s id).dma_vblank_mask = s.dma_vblank_mask := by
  unfold MarkDMAForExecution
  split_ifs <;> rfl

theorem mark_run_set (s : DMAController) (id : Nat) :
    (MarkDMAForExecution s id).dma_run_set = s.dma_run_set ||| (1 <<< id) := by
  unfold MarkDMAForExecution
  split_ifs <;> rfl

theorem mark_current (s : DMAController) (id : Nat) :
    (MarkDMAForExecution s id).dma_current =
      if s.dma_run_set = 0 then id else if id < s.dma_current then id else s.dma_current := by
  unfold MarkDMAForExecution
  split_ifs <;> rfl

theorem mark_interleaved (s : DMAController) (id : Nat) :
    (MarkDMAForExecution s id).dma_interleaved =
      if s.dma_run_set = 0 then s.dma_interleaved
      else if id < s.dma_current then true else s.dma_interleaved := by
  unfold MarkDMAForExecution
  split_ifs <;> rfl

@[simp] theorem updateBlankMasks_dma (s : DMAController) (id : Nat) (t : DMATime) :
    (updateBlankMasks s id t).dma = s.dma := by
  unfold updateBlankMasks
  split_ifs <;> rfl

@[simp] theorem updateBlankMasks_run_set (s : DMAController) (id : Nat) (t : DMATime) :
    (updateBlankMasks s id t).dma_run_set = s.dma_run_set := by
  unfold updateBlankMasks
  split_ifs <;> rfl

@[simp] theorem updateBlankMasks_current (s : DMAController) (id : Nat) (t : DMATime) :
    (updateBlankMasks s id t).dma_current = s.dma_current := by
  unfold updateBlankMasks
  split_ifs <;> rfl

@[simp] theorem updateBlankMasks_interleaved (s : DMAController) (id : Nat) (t : DMATime) :
    (updateBlankMasks s id t).dma_interleaved = s.dma_interleaved := by
  unfold updateBlankMasks
  split_ifs <;> rfl

/-- On a rising enable edge, case 11 of `Write` leaves the latched copy of the
decoded channel in `dma[id]`. -/
theorem writeCntH_rising_dma (C : Consts) (s : DMAController) (id v : Nat)
    (hen : (s.dma id).enable = false) (hbit : v.testBit 7 = true) :
    (WriteCntH C s id v).dma id = latch C id (decodeCntH (s.dma id) v) := by
  have he : (decodeCntH (s.dma id) v).enable = true := by
    simp [decodeCntH, asBool_and_128, hbit]
  unfold WriteCntH
  simp only [hen, he, Bool.not_false, Bool.and_self, if_true]
  split_ifs <;> simp

theorem latchLength_eq (C : Consts) (id len : Nat)
    (hmask : C.s_dma_len_mask id + 1 < 4294967296) :
    latchLength C id len =
      (if len &&& C.s_dma_len_mask id ≠ 0 then len &&& C.s_dma_len_mask id
       else C.s_dma_len_mask id + 1) := by
  unfold latchLength
  by_cases h : len &&& C.s_dma_len_mask id = 0
  · simp [h, Nat.mod_eq_of_lt hmask]
  · simp [h]

theorem latchLength_pos (C : Consts) (id len : Nat)
    (hmask : C.s_dma_len_mask id + 1 < 4294967296) : 1 ≤ latchLength C id len := by
  unfold latchLength
  split_ifs with h
  · rw [Nat.mod_eq_of_lt hmask]; omega
  · omega

theorem latchLength_le (C : Consts) (id len : Nat)
    (hmask : C.s_dma_len_mask id + 1 < 4294967296) :
    latchLength C id len ≤ C.s_dma_len_mask id + 1 := by
  unfold latchLength
  split_ifs with h
  · rw [Nat.mod_eq_of_lt hmask]
  · exact Nat.le_succ_of_le Nat.and_le_right

/-- C1: on a rising enable edge (enable clear before, bit 7 of the written byte
set) the control-high write latches the masked source and destination addresses
and the masked length, a masked length of zero becoming `mask + 1`; a programmed
length of 0 latches `mask + 1` and the latched length lies in `1..mask+1`. The
length mask is a parameter; `mask + 1` is assumed to fit the 32-bit field. -/
theorem C1_rising_edge_latch (C : Consts) (s : DMAController) (id v : Nat)
    (_hid : id < 4) (_hv : v < 256) (hbit : v.testBit 7 = true)
    (hen : (s.dma id).enable = false)
    (hmask : C.s_dma_len_mask id + 1 < 4294967296) :
    let d := s.dma id
    let d' := (Write C s id 11 v).dma id
    d'.src_addr = d.src_addr ∧ d'.dst_addr = d.dst_addr ∧ d'.length = d.length ∧
    d'.internal.src_addr = d.src_addr &&& C.s_dma_src_mask id ∧
    d'.internal.dst_addr = d.dst_addr &&& C.s_dma_dst_mask id ∧
    d'.internal.length =
      (if d.length &&& C.s_dma_len_mask id ≠ 0 then d.length &&& C.s_dma_len_mask id
       else C.s_dma_len_mask id + 1) ∧
    (d.length = 0 → d'.internal.length = C.s_dma_len_mask id + 1) ∧
    1 ≤ d'.internal.length ∧ d'.internal.length ≤ C.s_dma_len_mask id + 1 := by
  intro d d'
  have hd : d' = latch C id (decodeCntH d v) := writeCntH_rising_dma C s id v hen hbit
  have hl : d'.internal.length = latchLength C id d.length := by rw [hd]; rfl
  refine ⟨by rw [hd]; rfl, by rw [hd]; rfl, by rw [hd]; rfl, by rw [hd]; rfl, by rw [hd]; rfl,
    ?_, ?_, ?_, ?_⟩
  · rw [hl]; exact latchLength_eq C id _ hmask
  · intro h0
    rw [hl, h0]; unfold latchLength
    simp [Nat.mod_eq_of_lt hmask]
  · rw [hl]; exact latchLength_pos C id _ hmask
  · rw [hl]; exact latchLength_le C id _ hmask


/-- Witness of C1: channel 3 after `Reset` has programmed length 0; enabling it
latches the full length `0xFFFF + 1`. -/
theorem C1_rising_edge_latch_witness :
    (Reset.dma 3).enable = false ∧ (Reset.dma 3).length = 0 ∧
    ((Write gbaConsts Reset 3 11 0x80).dma 3).internal.length = 0x10000 :=
  ⟨rfl, rfl,
    (C1_rising_edge_latch gbaConsts Reset 3 0x80 (by decide) (by decide) (by decide) rfl
      (by decide)).2.2.2.2.2.2.1 rfl⟩

/-- Without a rising enable edge, case 11 of `Write` only stores the decoded
fields and updates the blank masks. -/
theorem writeCntH_no_edge (C : Consts) (s : DMAController) (id v : Nat)
    (h : (s.dma id).enable = true ∨ v.testBit 7 = false) :
    WriteCntH C s id v =
      setDMA (updateBlankMasks s id (decodeCntH (s.dma id) v).time) id
        (decodeCntH (s.dma id) v) := by
  have hc : (!(s.dma id).enable && (decodeCntH (s.dma id) v).enable) = false := by
    rcases h with h | h
    · simp [h]
    · simp [decodeCntH, asBool_and_128, h]
  unfold WriteCntH
  simp only [hc]
  rfl

@[simp] theorem decodeCntH_internal (d : DMA) (v : Nat) :
    (decodeCntH d v).internal = d.internal := rfl

theorem decodeCntH_enable (d : DMA) (v : Nat) :
    (decodeCntH d v).enable = v.testBit 7 := by
  simp [decodeCntH, asBool_and_128]

theorem write11_enable (C : Consts) (s : DMAController) (id v : Nat) :
    ((Write C s id 11 v).dma id).enable = v.testBit 7 := by
  show ((WriteCntH C s id v).dma id).enable = v.testBit 7
  unfold WriteCntH
  simp only []
  split_ifs <;> simp [latch, decodeCntH_enable]

/-- C2: a control-high write that is not a 0->1 enable edge (enable already set
before the write, or bit 7 of the written byte clear) leaves the internal
source, destination and length of every channel and `dma_run_set`,
`dma_current` and `dma_interleaved` unchanged; in particular a second write of
the enable bit right after a first one that set it latches and schedules
nothing. -/
theorem C2_only_rising_edge_latches (C : Consts) (s : DMAController) (id v : Nat) :
    ((s.dma id).enable = true ∨ v.testBit 7 = false →
      (∀ j, ((Write C s id 11 v).dma j).internal = (s.dma j).internal) ∧
      (Write C s id 11 v).dma_run_set = s.dma_run_set ∧
      (Write C s id 11 v).dma_current = s.dma_current ∧
      (Write C s id 11 v).dma_interleaved = s.dma_interleaved) ∧
    (∀ w, w.testBit 7 = true →
      (∀ j, ((Write C (Write C s id 11 w) id 11 v).dma j).internal
          = ((Write C s id 11 w).dma j).internal) ∧
      (Write C (Write C s id 11 w) id 11 v).dma_run_set = (Write C s id 11 w).dma_run_set ∧
      (Write C (Write C s id 11 w) id 11 v).dma_current = (Write C s id 11 w).dma_current ∧
      (Write C (Write C s id 11 w) id 11 v).dma_interleaved
          = (Write C s id 11 w).dma_interleaved) := by
  have key : ∀ (t : DMAController), ((t.dma id).enable = true ∨ v.testBit 7 = false) →
      (∀ j, ((Write C t id 11 v).dma j).internal = (t.dma j).internal) ∧
      (Write C t id 11 v).dma_run_set = t.dma_run_set ∧
      (Write C t id 11 v).dma_current = t.dma_current ∧
      (Write C t id 11 v).dma_interleaved = t.dma_interleaved := by
    intro t h
    have hw : Write C t id 11 v = WriteCntH C t id v := rfl
    rw [hw, writeCntH_no_edge C t id v h]
    refine ⟨?_, by simp, by simp, by simp⟩
    intro j
    by_cases hj : j = id
    · subst hj; simp
    · simp [hj]
  refine ⟨key s, ?_⟩
  intro w hw
  exact key (Write C s id 11 w) (Or.inl (by rw [write11_enable, hw]))

/-- Witness of C2: channel 0 is enabled with length 4, the programmed length is
changed to 9, and the enable bit is written again: the latched state stays. -/
theorem C2_only_rising_edge_latches_witness :
    ((Write gbaConsts (Write gbaConsts (Write gbaConsts Reset 0 8 4) 0 11 0x80) 0 8 9).dma 0).enable
      = true ∧
    ((Write gbaConsts (Write gbaConsts (Write gbaConsts (Write gbaConsts Reset 0 8 4)
        0 11 0x80) 0 8 9) 0 11 0x80).dma 0).internal =
      ((Write gbaConsts (Write gbaConsts (Write gbaConsts Reset 0 8 4) 0 11 0x80) 0 8 9).dma 0).internal :=
  ⟨by decide,
    ((C2_only_rising_edge_latches gbaConsts
      (Write gbaConsts (Write gbaConsts (Write gbaConsts Reset 0 8 4) 0 11 0x80) 0 8 9)
      0 0x80).1 (Or.inl (by decide))).1 0⟩

theorem testBit_one_shiftLeft (id j : Nat) : (1 <<< id).testBit j = decide (id = j) := by
  rw [Nat.one_shiftLeft, Nat.testBit_two_pow]

/-- C3: `MarkDMAForExecution id`, for a channel `id` in `0..3`, sets bit `id` of
`dma_run_set` and no other bit changes; with an empty run set `id` becomes
current and the preemption flag is untouched; with a non-empty run set and
`id < dma_current` the channel `id` becomes current and the flag is set;
otherwise current and flag stay; no channel field and no blank mask changes. -/
theorem C3_mark_runnable (s : DMAController) (id : Nat) (_hid : id < 4) :
    (MarkDMAForExecution s id).dma_run_set.testBit id = true ∧
    (∀ j, j ≠ id →
      (MarkDMAForExecution s id).dma_run_set.testBit j = s.dma_run_set.testBit j) ∧
    (s.dma_run_set = 0 →
      (MarkDMAForExecution s id).dma_current = id ∧
      (MarkDMAForExecution s id).dma_interleaved = s.dma_interleaved) ∧
    (s.dma_run_set ≠ 0 → id < s.dma_current →
      (MarkDMAForExecution s id).dma_current = id ∧
      (MarkDMAForExecution s id).dma_interleaved = true) ∧
    (s.dma_run_set ≠ 0 → s.dma_current ≤ id →
      (MarkDMAForExecution s id).dma_current = s.dma_current ∧
      (MarkDMAForExecution s id).dma_interleaved = s.dma_interleaved) ∧
    (MarkDMAForExecution s id).dma = s.dma ∧
    (MarkDMAForExecution s id).dma_hblank_mask = s.dma_hblank_mask ∧
    (MarkDMAForExecution s id).dma_vblank_mask = s.dma_vblank_mask := by
  refine ⟨?_, ?_, ?_, ?_, ?_, mark_dma s id, mark_hblank_mask s id, mark_vblank_mask s id⟩
  · rw [mark_run_set, Nat.testBit_or, testBit_one_shiftLeft]
    simp
  · intro j hj
    rw [mark_run_set, Nat.testBit_or, testBit_one_shiftLeft]
    simp [Ne.symm hj]
  · intro h0
    simp [mark_current, mark_interleaved, h0]
  · intro h0 hlt
    simp [mark_current, mark_interleaved, h0, hlt]
  · intro h0 hle
    simp [mark_current, mark_interleaved, h0, Nat.not_lt.mpr hle]

/-- Witness of C3: channel 2 is running alone and channel 1 is marked: channel 1
preempts it. -/
theorem C3_mark_runnable_witness :
    (MarkDMAForExecution (MarkDMAForExecution Reset 2) 1).dma_current = 1 ∧
    (MarkDMAForExecution (MarkDMAForExecution Reset 2) 1).dma_interleaved = true :=
  (C3_mark_runnable (MarkDMAForExecution Reset 2) 1 (by decide)).2.2.2.1 (by decide) (by decide)

theorem testBit_not32_one_shiftLeft (id j : Nat) (hj : j < 32) :
    (not32 (1 <<< id)).testBit j = !decide (id = j) := by
  unfold not32
  have hlt : 1 <<< id % 4294967296 < 2 ^ 32 := Nat.mod_lt _ (by norm_num)
  have h := Nat.testBit_two_pow_sub_succ hlt j
  have e : 4294967295 - 1 <<< id % 4294967296 = 2 ^ 32 - (1 <<< id % 4294967296 + 1) := by
    norm_num; omega
  rw [e, h, show (4294967296 : Nat) = 2 ^ 32 by norm_num, Nat.testBit_mod_two_pow,
    testBit_one_shiftLeft]
  simp [hj]

theorem testBit_clear_ne (x id j : Nat) (hj : j < 32) (hne : j ≠ id) :
    (x &&& not32 (1 <<< id)).testBit j = x.testBit j := by
  rw [Nat.testBit_and, testBit_not32_one_shiftLeft id j hj]
  simp [Ne.symm hne]

theorem testBit_clear_same (x id : Nat) (hid : id < 32) :
    (x &&& not32 (1 <<< id)).testBit id = false := by
  rw [Nat.testBit_and, testBit_not32_one_shiftLeft id id hid]
  simp

theorem completeDMA_run_set_cases (C : Consts) (cur : Nat) (dc : DMAControl) (d : DMA)
    (rs : Nat) :
    (completeDMA C cur dc d rs).2 = rs ∨
    (completeDMA C cur dc d rs).2 = rs &&& not32 (1 <<< cur) := by
  unfold completeDMA
  by_cases hr : d.repeat_ = true
  · by_cases ht : d.time = DMA_IMMEDIATE
    · left; by_cases hc : dc = DMA_RELOAD <;> simp [hr, ht, hc]
    · right; by_cases hc : dc = DMA_RELOAD <;> simp [hr, ht, hc]
  · right; simp [hr]

theorem run_of_not_finished (C : Consts) (B : Bus) (s : DMAController) (cpu : CPU)
    (h : (runLoop B s cpu).finished = false) :
    Run C B s cpu =
      { ctl := { setDMA s s.dma_current (afterLoop (s.dma s.dma_current) (runLoop B s cpu)) with
                 dma_interleaved := (runLoop B s cpu).interleaved },
        cpu := (runLoop B s cpu).cpu, trace := (runLoop B s cpu).trace, completed := false } := by
  unfold Run
  simp [h]

theorem run_of_finished (C : Consts) (B : Bus) (s : DMAController) (cpu : CPU)
    (h : (runLoop B s cpu).finished = true) :
    Run C B s cpu =
      { ctl := reselect
          { setDMA s s.dma_current
              (completeDMA C s.dma_current (s.dma s.dma_current).dst_cntl
                (afterLoop (s.dma s.dma_current) (runLoop B s cpu)) s.dma_run_set).1 with
            dma_interleaved := (runLoop B s cpu).interleaved,
            dma_run_set :=
              (completeDMA C s.dma_current (s.dma s.dma_current).dst_cntl
                (afterLoop (s.dma s.dma_current) (runLoop B s cpu)) s.dma_run_set).2 },
        cpu := raiseInterrupt C s.dma_current (afterLoop (s.dma s.dma_current) (runLoop B s cpu))
          (runLoop B s cpu).cpu,
        trace := (runLoop B s cpu).trace, completed := true } := by
  unfold Run
  simp [h]

theorem run_completed (C : Consts) (B : Bus) (s : DMAController) (cpu : CPU) :
    (Run C B s cpu).completed = (runLoop B s cpu).finished := by
  cases h : (runLoop B s cpu).finished
  · rw [run_of_not_finished C B s cpu h]
  · rw [run_of_finished C B s cpu h]

@[simp] theorem reselect_run_set (s : DMAController) : (reselect s).dma_run_set = s.dma_run_set := by
  unfold reselect
  split_ifs <;> rfl

@[simp] theorem reselect_dma (s : DMAController) : (reselect s).dma = s.dma := by
  unfold reselect
  split_ifs <;> rfl

@[simp] theorem reselect_interleaved (s : DMAController) :
    (reselect s).dma_interleaved = s.dma_interleaved := by
  unfold reselect
  split_ifs <;> rfl

@[simp] theorem reselect_hblank_mask (s : DMAController) :
    (reselect s).dma_hblank_mask = s.dma_hblank_mask := by
  unfold reselect
  split_ifs <;> rfl

@[simp] theorem reselect_vblank_mask (s : DMAController) :
    (reselect s).dma_vblank_mask = s.dma_vblank_mask := by
  unfold reselect
  split_ifs <;> rfl

theorem run_run_set_cases (C : Consts) (B : Bus) (s : DMAController) (cpu : CPU) :
    (Run C B s cpu).ctl.dma_run_set = s.dma_run_set ∨
    (Run C B s cpu).ctl.dma_run_set = s.dma_run_set &&& not32 (1 <<< s.dma_current) := by
  cases h : (runLoop B s cpu).finished
  · rw [run_of_not_finished C B s cpu h]; left; rfl
  · rw [run_of_finished C B s cpu h]
    simp only [reselect_run_set]
    exact completeDMA_run_set_cases _ _ _ _ _

theorem run_not_completed_run_set (C : Consts) (B : Bus) (s : DMAController) (cpu : CPU)
    (h : (Run C B s cpu).completed = false) :
    (Run C B s cpu).ctl.dma_run_set = s.dma_run_set := by
  rw [run_completed] at h
  rw [run_of_not_finished C B s cpu h]
  rfl

/-- A call of `Run` keeps every bit of the run set other than that of the
channel current at its entry. -/
theorem run_keeps_other_bits (C : Consts) (B : Bus) (s : DMAController) (cpu : CPU)
    (j : Nat) (hj : j < 32) (hne : j ≠ s.dma_current) :
    (Run C B s cpu).ctl.dma_run_set.testBit j = s.dma_run_set.testBit j := by
  rcases run_run_set_cases C B s cpu with h | h
  · rw [h]
  · rw [h, testBit_clear_ne _ _ _ hj hne]

theorem one_shiftLeft_ne_zero (id : Nat) : 1 <<< id ≠ 0 := by
  rw [Nat.one_shiftLeft]
  exact Nat.pos_iff_ne_zero.mp (Nat.two_pow_pos id)

theorem mark_run_set_ne_zero (s : DMAController) (id : Nat) :
    (MarkDMAForExecution s id).dma_run_set ≠ 0 := by
  rw [mark_run_set]
  intro h
  have h2 := congrArg (fun x => x.testBit id) h
  simp only [Nat.testBit_or, testBit_one_shiftLeft, Nat.zero_testBit] at h2
  simp at h2

/-- C4: from an empty run set, marking two channels `a < b` runnable in either
order makes `a` current and leaves exactly the bits `a` and `b` in the run set;
a following `Run` keeps every run-set bit other than that of the channel current
at its entry, so the bit of `b` is still set after it, and the whole run set is
unchanged by a `Run` that does not complete. -/
theorem C4_two_eligible_channels (C : Consts) (B : Bus) (s : DMAController) (a b : Nat)
    (cpu : CPU) (hab : a < b) (hb : b < 4) (h0 : s.dma_run_set = 0) :
    (MarkDMAForExecution (MarkDMAForExecution s a) b).dma_current = a ∧
    (MarkDMAForExecution (MarkDMAForExecution s a) b).dma_run_set = (1 <<< a) ||| (1 <<< b) ∧
    (MarkDMAForExecution (MarkDMAForExecution s b) a).dma_current = a ∧
    (MarkDMAForExecution (MarkDMAForExecution s b) a).dma_run_set = (1 <<< a) ||| (1 <<< b) ∧
    (∀ t : DMAController, ∀ j, j < 4 → j ≠ t.dma_current →
      (Run C B t cpu).ctl.dma_run_set.testBit j = t.dma_run_set.testBit j) ∧
    (Run C B (MarkDMAForExecution (MarkDMAForExecution s a) b) cpu).ctl.dma_run_set.testBit b
      = true ∧
    (Run C B (MarkDMAForExecution (MarkDMAForExecution s b) a) cpu).ctl.dma_run_set.testBit b
      = true ∧
    ((Run C B (MarkDMAForExecution (MarkDMAForExecution s a) b) cpu).completed = false →
      (Run C B (MarkDMAForExecution (MarkDMAForExecution s a) b) cpu).ctl.dma_run_set
        = (1 <<< a) ||| (1 <<< b)) ∧
    ((Run C B (MarkDMAForExecution (MarkDMAForExecution s b) a) cpu).completed = false →
      (Run C B (MarkDMAForExecution (MarkDMAForExecution s b) a) cpu).ctl.dma_run_set
        = (1 <<< a) ||| (1 <<< b)) := by
  have hca : (MarkDMAForExecution s a).dma_current = a := by simp [mark_current, h0]
  have hcb : (MarkDMAForExecution s b).dma_current = b := by simp [mark_current, h0]
  have c1 : (MarkDMAForExecution (MarkDMAForExecution s a) b).dma_current = a := by
    rw [mark_current, if_neg (mark_run_set_ne_zero s a), hca, if_neg (Nat.lt_asymm hab)]
  have r1 : (MarkDMAForExecution (MarkDMAForExecution s a) b).dma_run_set
      = (1 <<< a) ||| (1 <<< b) := by
    rw [mark_run_set, mark_run_set, h0, Nat.zero_or]
  have c2 : (MarkDMAForExecution (MarkDMAForExecution s b) a).dma_current = a := by
    rw [mark_current, if_neg (mark_run_set_ne_zero s b), hcb, if_pos hab]
  have r2 : (MarkDMAForExecution (MarkDMAForExecution s b) a).dma_run_set
      = (1 <<< a) ||| (1 <<< b) := by
    rw [mark_run_set, mark_run_set, h0, Nat.zero_or, Nat.lor_comm]
  have hbit : ((1 <<< a) ||| (1 <<< b)).testBit b = true := by
    rw [Nat.testBit_or, testBit_one_shiftLeft, testBit_one_shiftLeft]
    simp
  have keep : ∀ t : DMAController, ∀ j, j < 4 → j ≠ t.dma_current →
      (Run C B t cpu).ctl.dma_run_set.testBit j = t.dma_run_set.testBit j :=
    fun t j hj hne => run_keeps_other_bits C B t cpu j (by omega) hne
  refine ⟨c1, r1, c2, r2, keep, ?_, ?_, ?_, ?_⟩
  · rw [keep _ b hb (by rw [c1]; omega), r1, hbit]
  · rw [keep _ b hb (by rw [c2]; omega), r2, hbit]
  · intro h
    rw [run_not_completed_run_set C B _ cpu h, r1]
  · intro h
    rw [run_not_completed_run_set C B _ cpu h, r2]

/-- Witness of C4: channels 0 and 2 after `Reset`, channel 2 marked first; a
`Run` with a budget of 10 leaves the bit of channel 2 set. -/
theorem C4_two_eligible_channels_witness :
    Reset.dma_run_set = 0 ∧
    (MarkDMAForExecution (MarkDMAForExecution Reset 2) 0).dma_current = 0 ∧
    (MarkDMAForExecution (MarkDMAForExecution Reset 2) 0).dma_run_set = 5 ∧
    (Run gbaConsts flatBus (MarkDMAForExecution (MarkDMAForExecution Reset 2) 0)
      { run_until := 10, irq_if := 0, memory := fun _ => 0 }).ctl.dma_run_set.testBit 2 = true :=
  have h := C4_two_eligible_channels gbaConsts flatBus Reset 0 2
    { run_until := 10, irq_if := 0, memory := fun _ => 0 } (by decide) (by decide) rfl
  ⟨rfl, h.2.2.1, h.2.2.2.1, h.2.2.2.2.2.2.1⟩

/-- In a run set of four bits, the table returns a set bit below which no bit
is set. -/
theorem dmaFromBitset_lowest :
    ∀ rs, rs < 16 → ∀ c, c < 4 → rs.testBit c = true →
      (∀ j, j < c → rs.testBit j = false) → (dmaFromBitset rs).toNat = c := by
  decide

theorem testBit_pos (rs c : Nat) (h : rs.testBit c = true) : 0 < rs := by
  rcases Nat.eq_zero_or_pos rs with h0 | h0
  · rw [h0, Nat.zero_testBit] at h; cases h
  · exact h0

/-- A call of `Run` changes no channel other than the one current at its
entry. -/
theorem run_dma_other (C : Consts) (B : Bus) (s : DMAController) (cpu : CPU) (j : Nat)
    (hne : j ≠ s.dma_current) : (Run C B s cpu).ctl.dma j = s.dma j := by
  cases h : (runLoop B s cpu).finished
  · rw [run_of_not_finished C B s cpu h]
    exact setDMA_dma_ne s _ j _ hne
  · rw [run_of_finished C B s cpu h]
    rw [reselect_dma]
    exact setDMA_dma_ne s _ j _ hne

theorem run_not_completed_current (C : Consts) (B : Bus) (s : DMAController) (cpu : CPU)
    (h : (Run C B s cpu).completed = false) :
    (Run C B s cpu).ctl.dma_current = s.dma_current := by
  rw [run_completed] at h
  rw [run_of_not_finished C B s cpu h]
  rfl

theorem run_not_completed_repeat (C : Consts) (B : Bus) (s : DMAController) (cpu : CPU)
    (h : (Run C B s cpu).completed = false) :
    ((Run C B s cpu).ctl.dma s.dma_current).repeat_ = (s.dma s.dma_current).repeat_ := by
  rw [run_completed] at h
  rw [run_of_not_finished C B s cpu h]
  show ((setDMA s s.dma_current _).dma s.dma_current).repeat_ = _
  rw [setDMA_dma_same]
  rfl

theorem completeDMA_no_repeat (C : Consts) (cur : Nat) (dc : DMAControl) (d : DMA) (rs : Nat)
    (h : d.repeat_ = false) :
    completeDMA C cur dc d rs = ({ d with enable := false }, rs &&& not32 (1 <<< cur)) := by
  unfold completeDMA
  simp [h]

/-- A completing `Run` on a non-repeating current channel: the new run set and
the disabled channel. -/
theorem run_completed_no_repeat (C : Consts) (B : Bus) (s : DMAController) (cpu : CPU)
    (h : (Run C B s cpu).completed = true) (hr : (s.dma s.dma_current).repeat_ = false) :
    (Run C B s cpu).ctl.dma_run_set = s.dma_run_set &&& not32 (1 <<< s.dma_current) ∧
    ((Run C B s cpu).ctl.dma s.dma_current).enable = false ∧
    (Run C B s cpu).ctl.dma_current =
      (reselect { s with dma_run_set := s.dma_run_set &&& not32 (1 <<< s.dma_current) }).dma_current := by
  rw [run_completed] at h
  have hr2 : (afterLoop (s.dma s.dma_current) (runLoop B s cpu)).repeat_ = false := hr
  rw [run_of_finished C B s cpu h, completeDMA_no_repeat _ _ _ _ _ hr2]
  refine ⟨by simp, ?_, ?_⟩
  · simp only [reselect_dma]
    show ((setDMA s s.dma_current _).dma s.dma_current).enable = false
    rw [setDMA_dma_same]
  · unfold reselect
    simp only [setDMA_run_set]
    split_ifs <;> rfl

/-- The invariant behind C5: while the preempting channel `h` is current and
has not completed, the preempted channel `c` keeps its state and its bit; the
call that completes `h` hands control back to `c`. -/
theorem runUntilComplete_preempted (C : Consts) (B : Bus) (c h : Nat) (d : DMA)
    (hc : c < 4) (hh : h < c) (cpus : List CPU) :
    ∀ t : DMAController, t.dma_current = h → t.dma c = d → t.dma_run_set.testBit c = true →
      t.dma_run_set < 16 → (∀ j, j < c → j ≠ h → t.dma_run_set.testBit j = false) →
      (t.dma h).repeat_ = false →
      (runUntilComplete C B t cpus).1.dma c = d ∧
      (runUntilComplete C B t cpus).1.dma_run_set.testBit c = true ∧
      ((runUntilComplete C B t cpus).2 = true →
        (runUntilComplete C B t cpus).1.dma_current = c ∧
        ((runUntilComplete C B t cpus).1.dma h).enable = false ∧
        (runUntilComplete C B t cpus).1.dma_run_set.testBit h = false) ∧
      ((runUntilComplete C B t cpus).2 = false →
        (runUntilComplete C B t cpus).1.dma_current = h) := by
  induction cpus with
  | nil =>
    intro t hcur hd hbit _ _ _
    simp [runUntilComplete, hcur, hd, hbit]
  | cons cpu rest ih =>
    intro t hcur hd hbit hrs hlow hrep
    have hne : c ≠ t.dma_current := by rw [hcur]; omega
    cases hcomp : (Run C B t cpu).completed
    · have e : runUntilComplete C B t (cpu :: rest)
          = runUntilComplete C B (Run C B t cpu).ctl rest := by
        simp [runUntilComplete, hcomp]
      rw [e]
      have hrs' := run_not_completed_run_set C B t cpu hcomp
      apply ih
      · rw [run_not_completed_current C B t cpu hcomp, hcur]
      · rw [run_dma_other C B t cpu c hne, hd]
      · rw [hrs', hbit]
      · rw [hrs']; exact hrs
      · rw [hrs']; exact hlow
      · have := run_not_completed_repeat C B t cpu hcomp
        rw [hcur] at this
        rw [this, hrep]
    · have e : runUntilComplete C B t (cpu :: rest) = ((Run C B t cpu).ctl, true) := by
        simp [runUntilComplete, hcomp]
      rw [e]
      have hrep' : (t.dma t.dma_current).repeat_ = false := by rw [hcur]; exact hrep
      obtain ⟨h1, h2, h3⟩ := run_completed_no_repeat C B t cpu hcomp hrep'
      rw [hcur] at h1 h2 h3
      have hbit' : (t.dma_run_set &&& not32 (1 <<< h)).testBit c = true := by
        rw [testBit_clear_ne _ _ _ (by omega) (by omega), hbit]
      have hlow' : ∀ j, j < c → (t.dma_run_set &&& not32 (1 <<< h)).testBit j = false := by
        intro j hj
        by_cases hjh : j = h
        · rw [hjh]; exact testBit_clear_same _ _ (by omega)
        · rw [testBit_clear_ne _ _ _ (by omega) hjh]; exact hlow j hj hjh
      have hlt : t.dma_run_set &&& not32 (1 <<< h) < 16 :=
        Nat.lt_of_le_of_lt Nat.and_le_left hrs
      refine ⟨?_, ?_, ?_, ?_⟩
      · show (Run C B t cpu).ctl.dma c = d
        rw [run_dma_other C B t cpu c hne, hd]
      · show (Run C B t cpu).ctl.dma_run_set.testBit c = true
        rw [h1, hbit']
      · intro _
        refine ⟨?_, h2, ?_⟩
        · show (Run C B t cpu).ctl.dma_current = c
          rw [h3]
          unfold reselect
          simp only [testBit_pos _ _ hbit', if_true]
          exact dmaFromBitset_lowest _ hlt c hc hbit' hlow'
        · show (Run C B t cpu).ctl.dma_run_set.testBit h = false
          rw [h1]; exact testBit_clear_same _ _ (by omega)
      · intro hf; cases hf

/-- C5: a channel `c` that is current and in the run set is preempted by
`MarkDMAForExecution h` with `h < c`, `h` non-repeating, no other channel below
`c` in the run set. Under any sequence of `Run` calls up to and including the
one that completes `h`, channel `c` keeps every field, in particular its
internal source, destination and length, and its run-set bit; while `h` has not
completed `h` is current, and after the call that completes `h` the current
channel is `c` again, `h` being disabled and out of the run set. More generally
no call of `Run` changes a channel other than the one current at its entry. -/
theorem C5_preemption_keeps_progress (C : Consts) (B : Bus) (s : DMAController) (c h : Nat)
    (cpus : List CPU) (hc : c < 4) (hh : h < c) (hcur : s.dma_current = c)
    (hbit : s.dma_run_set.testBit c = true) (hrs : s.dma_run_set < 16)
    (hlow : ∀ j, j < c → j ≠ h → s.dma_run_set.testBit j = false)
    (hrep : (s.dma h).repeat_ = false) :
    (runUntilComplete C B (MarkDMAForExecution s h) cpus).1.dma c = s.dma c ∧
    (runUntilComplete C B (MarkDMAForExecution s h) cpus).1.dma_run_set.testBit c = true ∧
    ((runUntilComplete C B (MarkDMAForExecution s h) cpus).2 = true →
      (runUntilComplete C B (MarkDMAForExecution s h) cpus).1.dma_current = c ∧
      ((runUntilComplete C B (MarkDMAForExecution s h) cpus).1.dma h).enable = false ∧
      (runUntilComplete C B (MarkDMAForExecution s h) cpus).1.dma_run_set.testBit h = false) ∧
    ((runUntilComplete C B (MarkDMAForExecution s h) cpus).2 = false →
      (runUntilComplete C B (MarkDMAForExecution s h) cpus).1.dma_current = h) ∧
    (∀ (t : DMAController) (cpu : CPU) (j : Nat), j ≠ t.dma_current →
      (Run C B t cpu).ctl.dma j = t.dma j) := by
  have h0 : s.dma_run_set ≠ 0 := Nat.pos_iff_ne_zero.mp (testBit_pos _ _ hbit)
  have hm := runUntilComplete_preempted C B c h (s.dma c) hc hh cpus (MarkDMAForExecution s h)
    (by rw [mark_current, if_neg h0, hcur, if_pos hh])
    (by rw [mark_dma])
    (by rw [mark_run_set, Nat.testBit_or, hbit, Bool.true_or])
    (by
      rw [mark_run_set]
      have h1 : 1 <<< h < 2 ^ 4 := by
        rw [Nat.one_shiftLeft]; exact Nat.pow_lt_pow_right (by norm_num) (by omega)
      exact Nat.or_lt_two_pow (by simpa using hrs) h1)
    (by
      intro j hj hjh
      rw [mark_run_set, Nat.testBit_or, hlow j hj hjh, testBit_one_shiftLeft]
      simp [Ne.symm hjh])
    (by rw [mark_dma]; exact hrep)
  exact ⟨hm.1, hm.2.1, hm.2.2.1, hm.2.2.2, fun t cpu j hne => run_dma_other C B t cpu j hne⟩

/-- Witness of C5: in `preemptScenario` channel 2 is current with latched length
3; channel 0 is marked runnable and two `Run` calls follow (the first consumes
the preemption flag, the second completes channel 0): channel 2 is current
again with its state untouched. -/
theorem C5_preemption_keeps_progress_witness :
    preemptScenario.dma_current = 2 ∧ preemptScenario.dma_run_set = 4 ∧
    (preemptScenario.dma 2).internal.length = 3 ∧
    (runUntilComplete gbaConsts flatBus (MarkDMAForExecution preemptScenario 0)
      [sampleCPU, sampleCPU]).2 = true ∧
    (runUntilComplete gbaConsts flatBus (MarkDMAForExecution preemptScenario 0)
      [sampleCPU, sampleCPU]).1.dma 2 = preemptScenario.dma 2 ∧
    (runUntilComplete gbaConsts flatBus (MarkDMAForExecution preemptScenario 0)
      [sampleCPU, sampleCPU]).1.dma_current = 2 :=
  have h := C5_preemption_keeps_progress gbaConsts flatBus preemptScenario 2 0
    [sampleCPU, sampleCPU] (by decide) (by decide) (by decide) (by decide) (by decide)
    (by decide) (by decide)
  have hc : (runUntilComplete gbaConsts flatBus (MarkDMAForExecution preemptScenario 0)
      [sampleCPU, sampleCPU]).2 = true := by decide
  ⟨by decide, by decide, by decide, hc, h.1, (h.2.2.1 hc).1⟩

theorem addN32_zero (a : Nat) (d : Int) (ha : a < 4294967296) : addN32 a d 0 = a := by
  unfold addN32
  simp only [Nat.cast_zero, zero_mul, add_zero]
  omega

theorem addN32_add32 (a : Nat) (d : Int) (n : Nat) :
    addN32 (add32 a d) d n = addN32 a d (n + 1) := by
  unfold addN32 add32
  have h0 : (0 : Int) ≤ ((a : Int) + d) % 4294967296 := Int.emod_nonneg _ (by norm_num)
  rw [Int.toNat_of_nonneg h0, Int.emod_add_emod]
  congr 2
  push_cast
  ring

theorem add32_lt (a : Nat) (d : Int) : add32 a d < 4294967296 := by
  unfold add32
  have h1 : ((a : Int) + d) % 4294967296 < 4294967296 := Int.emod_lt_of_pos _ (by norm_num)
  omega

theorem transferLoop_budget (B : Bus) (words : Bool) (sm dm : Int) (n src dst : Nat)
    (il : Bool) (cpu : CPU) (hb : cpu.run_until ≤ 0) :
    transferLoop B words sm dm (n + 1) src dst il cpu =
      { finished := false, length := n + 1, src_addr := src, dst_addr := dst,
        interleaved := il, cpu := cpu, trace := [] } := by
  simp [transferLoop, hb]

theorem transferLoop_preempted (B : Bus) (words : Bool) (sm dm : Int) (n src dst : Nat)
    (cpu : CPU) (hb : 0 < cpu.run_until) :
    transferLoop B words sm dm (n + 1) src dst true cpu =
      { finished := false, length := n + 1, src_addr := src, dst_addr := dst,
        interleaved := false, cpu := cpu, trace := [] } := by
  simp [transferLoop, not_le.mpr hb]

theorem transferLoop_unit (B : Bus) (words : Bool) (sm dm : Int) (n src dst : Nat)
    (cpu : CPU) (hb : 0 < cpu.run_until) :
    transferLoop B words sm dm (n + 1) src dst false cpu =
      { transferLoop B words sm dm n (add32 src sm) (add32 dst dm) false
          (unitCPU B words cpu src dst) with
        trace := BusEvent.read words src (busRead B words cpu src).1 ::
          BusEvent.write words dst (busRead B words cpu src).1 ::
          (transferLoop B words sm dm n (add32 src sm) (add32 dst dm) false
            (unitCPU B words cpu src dst)).trace } := by
  simp [transferLoop, not_le.mpr hb]

/-- A transfer loop that runs to its end has transferred the whole remaining
length: both addresses have advanced `length` times and the preemption flag is
untouched (and was clear, unless the length was zero). -/
theorem transferLoop_finished (B : Bus) (words : Bool) (sm dm : Int) :
    ∀ (n src dst : Nat) (il : Bool) (cpu : CPU),
      src < 4294967296 → dst < 4294967296 →
      (transferLoop B words sm dm n src dst il cpu).finished = true →
      (transferLoop B words sm dm n src dst il cpu).length = 0 ∧
      (transferLoop B words sm dm n src dst il cpu).src_addr = addN32 src sm n ∧
      (transferLoop B words sm dm n src dst il cpu).dst_addr = addN32 dst dm n ∧
      (transferLoop B words sm dm n src dst il cpu).interleaved = il ∧
      (transferLoop B words sm dm n src dst il cpu).trace.length = 2 * n ∧
      (n ≠ 0 → il = false ∧ 0 < cpu.run_until) := by
  intro n
  induction n with
  | zero =>
    intro src dst il cpu hs hd _
    simp [transferLoop, addN32_zero _ _ hs, addN32_zero _ _ hd]
  | succ n ih =>
    intro src dst il cpu hs hd hfin
    by_cases hb : cpu.run_until ≤ 0
    · rw [transferLoop_budget B words sm dm n src dst il cpu hb] at hfin
      cases hfin
    · have hb' : 0 < cpu.run_until := not_le.mp hb
      cases il with
      | true =>
        rw [transferLoop_preempted B words sm dm n src dst cpu hb'] at hfin
        cases hfin
      | false =>
        rw [transferLoop_unit B words sm dm n src dst cpu hb'] at hfin ⊢
        obtain ⟨h1, h2, h3, h4, h5, _⟩ :=
          ih _ _ false _ (add32_lt src sm) (add32_lt dst dm) hfin
        refine ⟨h1, ?_, ?_, h4, ?_, ?_⟩
        · show (transferLoop B words sm dm n _ _ false _).src_addr = _
          rw [h2, addN32_add32]
        · show (transferLoop B words sm dm n _ _ false _).dst_addr = _
          rw [h3, addN32_add32]
        · simp only [List.length_cons, h5]; omega
        · intro _; exact ⟨rfl, hb'⟩

theorem completeDMA_repeat (C : Consts) (cur : Nat) (dc : DMAControl) (d : DMA) (rs : Nat)
    (h : d.repeat_ = true) :
    completeDMA C cur dc d rs =
      ({ d with internal :=
          { length := latchLength C cur d.length,
            dst_addr := if dc = DMA_RELOAD then d.dst_addr &&& C.s_dma_dst_mask cur
              else d.internal.dst_addr,
            src_addr := d.internal.src_addr } },
       if d.time ≠ DMA_IMMEDIATE then rs &&& not32 (1 <<< cur) else rs) := by
  unfold completeDMA
  by_cases hc : dc = DMA_RELOAD <;> simp [h, hc]

/-- C6: when `Run` completes the current channel and its repeat flag is set,
then afterwards the internal length is the programmed length under the length
mask, or `mask + 1` if that is zero; the internal destination is the programmed
destination under the destination mask if the destination control is
increment-and-reload, and otherwise the address the transfer advanced to; the
internal source is the address the transfer advanced to; the enable flag and
the programmed registers are unchanged; and the run set loses the bit of the
channel if its timing is not immediate and is unchanged if it is immediate. The
length mask is a parameter with `mask + 1` fitting 32 bits; the internal
addresses at entry are 32-bit values. -/
theorem C6_repeat_completion (C : Consts) (B : Bus) (s : DMAController) (cpu : CPU)
    (hcomp : (Run C B s cpu).completed = true)
    (hrep : (s.dma s.dma_current).repeat_ = true)
    (hcur : s.dma_current < 4)
    (hmask : C.s_dma_len_mask s.dma_current + 1 < 4294967296)
    (hsrc : (s.dma s.dma_current).internal.src_addr < 4294967296)
    (hdst : (s.dma s.dma_current).internal.dst_addr < 4294967296) :
    let cur := s.dma_current
    let d := s.dma cur
    let d' := (Run C B s cpu).ctl.dma cur
    d'.internal.length =
      (if d.length &&& C.s_dma_len_mask cur ≠ 0 then d.length &&& C.s_dma_len_mask cur
       else C.s_dma_len_mask cur + 1) ∧
    d'.internal.dst_addr =
      (if d.dst_cntl = DMA_RELOAD then d.dst_addr &&& C.s_dma_dst_mask cur
       else addN32 d.internal.dst_addr (modify d.size d.dst_cntl) d.internal.length) ∧
    d'.internal.src_addr =
      addN32 d.internal.src_addr (modify d.size d.src_cntl) d.internal.length ∧
    d'.enable = d.enable ∧
    d'.length = d.length ∧ d'.dst_addr = d.dst_addr ∧ d'.src_addr = d.src_addr ∧
    (d.time ≠ DMA_IMMEDIATE →
      (Run C B s cpu).ctl.dma_run_set = s.dma_run_set &&& not32 (1 <<< cur) ∧
      (Run C B s cpu).ctl.dma_run_set.testBit cur = false) ∧
    (d.time = DMA_IMMEDIATE → (Run C B s cpu).ctl.dma_run_set = s.dma_run_set) := by
  intro cur d d'
  rw [run_completed] at hcomp
  have hfin := transferLoop_finished B (decide (d.size = DMA_WORD)) (modify d.size d.src_cntl)
    (modify d.size d.dst_cntl) d.internal.length d.internal.src_addr d.internal.dst_addr
    s.dma_interleaved cpu hsrc hdst hcomp
  obtain ⟨_, h2, h3, _, _, _⟩ := hfin
  have hrep2 : (afterLoop d (runLoop B s cpu)).repeat_ = true := hrep
  have hd' : d' = (completeDMA C cur d.dst_cntl (afterLoop d (runLoop B s cpu))
      s.dma_run_set).1 := by
    show (Run C B s cpu).ctl.dma s.dma_current = _
    rw [run_of_finished C B s cpu hcomp, reselect_dma]
    exact setDMA_dma_same s _ _
  have hrs : (Run C B s cpu).ctl.dma_run_set = (completeDMA C cur d.dst_cntl
      (afterLoop d (runLoop B s cpu)) s.dma_run_set).2 := by
    rw [run_of_finished C B s cpu hcomp, reselect_run_set]
  rw [completeDMA_repeat _ _ _ _ _ hrep2] at hd' hrs
  have ht : (afterLoop d (runLoop B s cpu)).time = d.time := rfl
  refine ⟨?_, ?_, ?_, ?_, ?_, ?_, ?_, ?_, ?_⟩
  · rw [hd']; exact latchLength_eq C cur d.length hmask
  · rw [hd']
    show (if d.dst_cntl = DMA_RELOAD then _ else (runLoop B s cpu).dst_addr) = _
    by_cases hc : d.dst_cntl = DMA_RELOAD
    · simp only [hc, if_true]; rfl
    · simp only [hc, if_false]; exact h3
  · rw [hd']; exact h2
  · rw [hd']; rfl
  · rw [hd']; rfl
  · rw [hd']; rfl
  · rw [hd']; rfl
  · intro hne
    have e : (Run C B s cpu).ctl.dma_run_set = s.dma_run_set &&& not32 (1 <<< cur) := by
      rw [hrs, ht, if_pos hne]
    exact ⟨e, by rw [e]; exact testBit_clear_same _ _ (by omega)⟩
  · intro heq
    rw [hrs]
    show (if (afterLoop d (runLoop B s cpu)).time ≠ DMA_IMMEDIATE then _ else _) = _
    rw [ht, if_neg (not_not.mpr heq)]

/-- Witness of C6: one `Run` drains and reloads channel 3 of `repeatScenario`:
the length is 2 again, the destination is back at `0x03000000`, the source has
advanced by two halfwords, and the channel stays in the run set. -/
theorem C6_repeat_completion_witness :
    (Run gbaConsts flatBus repeatScenario sampleCPU).completed = true ∧
    (repeatScenario.dma 3).repeat_ = true ∧
    ((Run gbaConsts flatBus repeatScenario sampleCPU).ctl.dma 3).internal.length = 2 ∧
    ((Run gbaConsts flatBus repeatScenario sampleCPU).ctl.dma 3).internal.dst_addr = 0x03000000 ∧
    ((Run gbaConsts flatBus repeatScenario sampleCPU).ctl.dma 3).internal.src_addr = 0x02000004 ∧
    (Run gbaConsts flatBus repeatScenario sampleCPU).ctl.dma_run_set = 8 :=
  have h := C6_repeat_completion gbaConsts flatBus repeatScenario sampleCPU
    (by decide) (by decide) (by decide) (by decide) (by decide) (by decide)
  ⟨by decide, by decide, h.1.trans (by decide), h.2.1.trans (by decide),
    h.2.2.1.trans (by decide), (h.2.2.2.2.2.2.2.2 (by decide)).trans (by decide)⟩

theorem dmaFromBitset_mem :
    ∀ x, x < 16 → 0 ≤ dmaFromBitset x → x.testBit (dmaFromBitset x).toNat = true := by
  decide

theorem dmaFromBitset_large (x : Nat) (h : 16 ≤ x) : dmaFromBitset x = -1 := by
  unfold dmaFromBitset
  exact List.getD_eq_default _ _ (by simpa [g_dma_from_bitset] using h)

theorem or_one_shiftLeft_of_testBit (x j : Nat) (h : x.testBit j = true) :
    x ||| (1 <<< j) = x := by
  apply Nat.eq_of_testBit_eq
  intro i
  rw [Nat.testBit_or, testBit_one_shiftLeft]
  by_cases hji : j = i
  · subst hji; simp [h]
  · simp [hji]

/-- Marking the channel the table picks from `rs &&& mask` leaves the run set
`rs` as it is: the channel picked is already a member. -/
theorem mark_picked_run_set (s : DMAController) (mask : Nat)
    (h : 0 ≤ dmaFromBitset (s.dma_run_set &&& mask)) :
    (MarkDMAForExecution s (dmaFromBitset (s.dma_run_set &&& mask)).toNat).dma_run_set
      = s.dma_run_set := by
  rw [mark_run_set]
  apply or_one_shiftLeft_of_testBit
  have hlt : s.dma_run_set &&& mask < 16 := by
    by_contra hge
    rw [dmaFromBitset_large _ (not_lt.mp hge)] at h
    omega
  have := dmaFromBitset_mem _ hlt h
  rw [Nat.testBit_and] at this
  exact (Bool.and_eq_true _ _ ▸ this).1

theorem triggerHBlank_run_set (s : DMAController) :
    (TriggerHBlankDMA s).dma_run_set = s.dma_run_set := by
  unfold TriggerHBlankDMA
  simp only []
  split_ifs with h
  · exact mark_picked_run_set s _ h
  · rfl

theorem triggerVBlank_run_set (s : DMAController) :
    (TriggerVBlankDMA s).dma_run_set = s.dma_run_set := by
  unfold TriggerVBlankDMA
  simp only []
  split_ifs with h
  · exact mark_picked_run_set s _ h
  · rfl

@[simp] theorem triggerHBlank_dma (s : DMAController) : (TriggerHBlankDMA s).dma = s.dma := by
  unfold TriggerHBlankDMA
  simp only []
  split_ifs <;> simp

@[simp] theorem triggerVBlank_dma (s : DMAController) : (TriggerVBlankDMA s).dma = s.dma := by
  unfold TriggerVBlankDMA
  simp only []
  split_ifs <;> simp

/-- A register write at an offset other than 11 changes neither the run set
nor the enable flag of any channel. -/
theorem write_other_offset (C : Consts) (s : DMAController) (id : Nat) (offset : Int)
    (v : Nat) (h : offset ≠ 11) :
    (Write C s id offset v).dma_run_set = s.dma_run_set ∧
    ∀ k, ((Write C s id offset v).dma k).enable = (s.dma k).enable := by
  unfold Write
  split
  all_goals first
    | exact absurd rfl h
    | exact ⟨rfl, fun k => rfl⟩
    | (refine ⟨rfl, fun k => ?_⟩
       by_cases hk : k = id
       · subst hk; simp
       · simp [hk])

/-- A control-high write to channel `j` leaves the run-set bit and the enable
flag of every other channel as they are. -/
theorem writeCntH_other (C : Consts) (s : DMAController) (j id v : Nat) (hne : id ≠ j) :
    (WriteCntH C s j v).dma_run_set.testBit id = s.dma_run_set.testBit id ∧
    (WriteCntH C s j v).dma id = s.dma id := by
  unfold WriteCntH
  simp only []
  split_ifs
  · refine ⟨?_, by simp [hne]⟩
    rw [mark_run_set, Nat.testBit_or, testBit_one_shiftLeft]
    simp [Ne.symm hne]
  · exact ⟨by simp, by simp [hne]⟩
  · exact ⟨by simp, by simp [hne]⟩

theorem afterLoop_enable (d : DMA) (r : LoopResult) : (afterLoop d r).enable = d.enable := rfl

theorem completeDMA_enable (C : Consts) (cur : Nat) (dc : DMAControl) (d : DMA) (rs : Nat)
    (h : d.enable = false) : (completeDMA C cur dc d rs).1.enable = false := by
  unfold completeDMA
  by_cases hr : d.repeat_ = true
  · by_cases hc : dc = DMA_RELOAD <;> simp [hr, hc, h]
  · simp [hr]

/-- A call of `Run` enables no channel. -/
theorem run_enable_false (C : Consts) (B : Bus) (s : DMAController) (cpu : CPU) (k : Nat)
    (h : (s.dma k).enable = false) : ((Run C B s cpu).ctl.dma k).enable = false := by
  by_cases hk : k = s.dma_current
  · subst hk
    cases hf : (runLoop B s cpu).finished
    · rw [run_of_not_finished C B s cpu hf]
      show ((setDMA s s.dma_current _).dma s.dma_current).enable = false
      rw [setDMA_dma_same]; exact h
    · rw [run_of_finished C B s cpu hf, reselect_dma]
      show ((setDMA s s.dma_current _).dma s.dma_current).enable = false
      rw [setDMA_dma_same]
      exact completeDMA_enable _ _ _ _ _ h
  · rw [run_dma_other C B s cpu k hk]; exact h

/-- A call of `Run` sets no bit of the run set. -/
theorem run_testBit_false (C : Consts) (B : Bus) (s : DMAController) (cpu : CPU) (k : Nat)
    (h : s.dma_run_set.testBit k = false) : (Run C B s cpu).ctl.dma_run_set.testBit k = false := by
  rcases run_run_set_cases C B s cpu with e | e
  · rw [e, h]
  · rw [e, Nat.testBit_and, h, Bool.false_and]

/-- One call that cannot rearm channel `id` keeps it disabled and out of the
run set. -/
theorem step_noRearm (C : Consts) (B : Bus) (id : Nat) (s : DMAController) (op : Op)
    (hop : op.noRearm id = true) (hen : (s.dma id).enable = false)
    (hbit : s.dma_run_set.testBit id = false) :
    ((step C B s op).dma id).enable = false ∧
    (step C B s op).dma_run_set.testBit id = false := by
  cases op with
  | run cpu => exact ⟨run_enable_false C B s cpu id hen, run_testBit_false C B s cpu id hbit⟩
  | hblank =>
    show ((TriggerHBlankDMA s).dma id).enable = false ∧ _
    rw [triggerHBlank_dma]
    exact ⟨hen, by show (TriggerHBlankDMA s).dma_run_set.testBit id = false
                   rw [triggerHBlank_run_set, hbit]⟩
  | vblank =>
    show ((TriggerVBlankDMA s).dma id).enable = false ∧ _
    rw [triggerVBlank_dma]
    exact ⟨hen, by show (TriggerVBlankDMA s).dma_run_set.testBit id = false
                   rw [triggerVBlank_run_set, hbit]⟩
  | mark j => simp [Op.noRearm] at hop
  | write j offset v =>
    show ((Write C s j offset v).dma id).enable = false ∧
      (Write C s j offset v).dma_run_set.testBit id = false
    by_cases ho : offset = 11
    · subst ho
      show ((WriteCntH C s j v).dma id).enable = false ∧
        (WriteCntH C s j v).dma_run_set.testBit id = false
      by_cases hj : j = id
      · subst hj
        have hv : v.testBit 7 = false := by simpa [Op.noRearm] using hop
        rw [writeCntH_no_edge C s j v (Or.inr hv)]
        refine ⟨?_, by simpa using hbit⟩
        rw [setDMA_dma_same, decodeCntH_enable, hv]
      · obtain ⟨h1, h2⟩ := writeCntH_other C s j id v (Ne.symm hj)
        rw [h1, h2]; exact ⟨hen, hbit⟩
    · obtain ⟨h1, h2⟩ := write_other_offset C s j offset v ho
      rw [h1, h2]; exact ⟨hen, hbit⟩

theorem exec_noRearm (C : Consts) (B : Bus) (id : Nat) (ops : List Op) :
    ∀ s : DMAController, (∀ op ∈ ops, op.noRearm id = true) → (s.dma id).enable = false →
      s.dma_run_set.testBit id = false →
      ((exec C B s ops).dma id).enable = false ∧
      (exec C B s ops).dma_run_set.testBit id = false := by
  induction ops with
  | nil => intro s _ hen hbit; exact ⟨hen, hbit⟩
  | cons op rest ih =>
    intro s hall hen hbit
    obtain ⟨h1, h2⟩ := step_noRearm C B id s op (hall op (List.mem_cons_self _ _)) hen hbit
    exact ih (step C B s op) (fun o ho => hall o (List.mem_cons_of_mem _ ho)) h1 h2

/-- C7: when `Run` completes the current channel and its repeat flag is clear,
the channel is disabled and out of the run set afterwards, and it stays
disabled and out of the run set under every sequence of `Run`, blank triggers
and register writes that contains no control-high write with bit 7 set to that
channel. -/
theorem C7_non_repeat_completion_final (C : Consts) (B : Bus) (s : DMAController) (cpu : CPU)
    (hcomp : (Run C B s cpu).completed = true)
    (hrep : (s.dma s.dma_current).repeat_ = false)
    (hcur : s.dma_current < 4) :
    ((Run C B s cpu).ctl.dma s.dma_current).enable = false ∧
    (Run C B s cpu).ctl.dma_run_set.testBit s.dma_current = false ∧
    ∀ ops : List Op, (∀ op ∈ ops, op.noRearm s.dma_current = true) →
      ((exec C B (Run C B s cpu).ctl ops).dma s.dma_current).enable = false ∧
      (exec C B (Run C B s cpu).ctl ops).dma_run_set.testBit s.dma_current = false := by
  obtain ⟨h1, h2, _⟩ := run_completed_no_repeat C B s cpu hcomp hrep
  have hb : (Run C B s cpu).ctl.dma_run_set.testBit s.dma_current = false := by
    rw [h1]; exact testBit_clear_same _ _ (by omega)
  exact ⟨h2, hb, fun ops hall => exec_noRearm C B s.dma_current ops _ hall h2 hb⟩

/-- Witness of C7: channel 0 of `drainScenario` completes in one `Run`; blank
triggers, a control-high write to channel 0 with bit 7 clear, the enabling of
channel 1 and further `Run` calls do not bring it back into the run set. -/
theorem C7_non_repeat_completion_final_witness :
    (Run gbaConsts flatBus drainScenario sampleCPU).completed = true ∧
    (drainScenario.dma 0).repeat_ = false ∧
    (exec gbaConsts flatBus (Run gbaConsts flatBus drainScenario sampleCPU).ctl
      [Op.hblank, Op.write 0 11 0x04, Op.run sampleCPU, Op.write 1 11 0x80, Op.vblank,
        Op.run sampleCPU]).dma_run_set.testBit 0 = false :=
  ⟨by decide, by decide,
    ((C7_non_repeat_completion_final gbaConsts flatBus drainScenario sampleCPU
      (by decide) (by decide) (by decide)).2.2 _ (by decide)).2⟩

/-- With the preemption flag clear and a budget that is positive before each
of the `n` units, the transfer loop runs to its end, and unit `k` is a read at
`src + k * sm` followed by a write of the value read at `dst + k * dm`. -/
theorem transferLoop_drain (B : Bus) (words : Bool) (sm dm : Int) :
    ∀ (n src dst : Nat) (cpu : CPU),
      src < 4294967296 → dst < 4294967296 →
      (∀ k, k < n → 0 < (cpuAfterUnits B words sm dm k src dst cpu).run_until) →
      (transferLoop B words sm dm n src dst false cpu).finished = true ∧
      (transferLoop B words sm dm n src dst false cpu).cpu
        = cpuAfterUnits B words sm dm n src dst cpu ∧
      ∀ k, k < n →
        (transferLoop B words sm dm n src dst false cpu).trace.get? (2 * k) =
          some (BusEvent.read words (addN32 src sm k)
            (busRead B words (cpuAfterUnits B words sm dm k src dst cpu) (addN32 src sm k)).1) ∧
        (transferLoop B words sm dm n src dst false cpu).trace.get? (2 * k + 1) =
          some (BusEvent.write words (addN32 dst dm k)
            (busRead B words (cpuAfterUnits B words sm dm k src dst cpu) (addN32 src sm k)).1) := by
  intro n
  induction n with
  | zero =>
    intro src dst cpu _ _ _
    exact ⟨rfl, rfl, fun k hk => absurd hk (Nat.not_lt_zero k)⟩
  | succ n ih =>
    intro src dst cpu hs hd hb
    have hb0 : 0 < cpu.run_until := hb 0 (Nat.succ_pos n)
    obtain ⟨h1, h2, h3⟩ := ih (add32 src sm) (add32 dst dm) (unitCPU B words cpu src dst)
      (add32_lt src sm) (add32_lt dst dm)
      (fun k hk => hb (k + 1) (Nat.succ_lt_succ hk))
    rw [transferLoop_unit B words sm dm n src dst cpu hb0]
    refine ⟨h1, h2, ?_⟩
    intro k hk
    cases k with
    | zero =>
      simp only [Nat.mul_zero, Nat.zero_add, List.get?, cpuAfterUnits,
        addN32_zero _ _ hs, addN32_zero _ _ hd]
      exact ⟨trivial, trivial⟩
    | succ k =>
      have e1 : 2 * (k + 1) = (2 * k + 1) + 1 := by ring
      obtain ⟨g1, g2⟩ := h3 k (Nat.lt_of_succ_lt_succ hk)
      rw [e1]
      simp only [List.get?, cpuAfterUnits]
      rw [g1, g2, addN32_add32, addN32_add32]
      exact ⟨rfl, rfl⟩

theorem cpuAfterUnits_succ (B : Bus) (words : Bool) (sm dm : Int) :
    ∀ (k src dst : Nat) (cpu : CPU), src < 4294967296 → dst < 4294967296 →
      cpuAfterUnits B words sm dm (k + 1) src dst cpu =
        unitCPU B words (cpuAfterUnits B words sm dm k src dst cpu)
          (addN32 src sm k) (addN32 dst dm k) := by
  intro k
  induction k with
  | zero =>
    intro src dst cpu hs hd
    simp only [cpuAfterUnits, addN32_zero _ _ hs, addN32_zero _ _ hd]
  | succ k ih =>
    intro src dst cpu hs hd
    have h := ih (add32 src sm) (add32 dst dm) (unitCPU B words cpu src dst)
      (add32_lt src sm) (add32_lt dst dm)
    rw [addN32_add32, addN32_add32] at h
    exact h

/-- The CPU states through which the transfer loop passes are those of the
spec-side copy: unit `k` is a read at `src + k * sm` and a write of the value
read at `dst + k * dm`, made with the bus primitives of the unit size. -/
theorem cpuAfterUnits_eq_specCopyCPU (B : Bus) (words : Bool) (sm dm : Int) (src dst : Nat)
    (cpu : CPU) (hs : src < 4294967296) (hd : dst < 4294967296) :
    ∀ k, cpuAfterUnits B words sm dm k src dst cpu = specCopyCPU B words sm dm src dst cpu k := by
  intro k
  induction k with
  | zero => rfl
  | succ k ih =>
    rw [cpuAfterUnits_succ B words sm dm k src dst cpu hs hd, ih]
    cases words <;> rfl

theorem busRead_eq_specCopyWord (B : Bus) (words : Bool) (sm : Int) (src : Nat) (c : CPU)
    (k : Nat) : (busRead B words c (addN32 src sm k)).1 = specCopyWord B words sm src c k := by
  cases words <;> rfl

/-- C8: for a current channel with latched length `n`, the preemption flag
clear and a budget that is positive before each of the `n` units, `Run` reaches
its completion path after exactly `n` units (`2 * n` bus calls); unit `k`
(`k = 0..n-1`) is a read at `internalSrc + k * dSrc` followed by a write of the
value read at `internalDst + k * dDst`, modulo `2^32`, with the unit size of the
channel; the CPU state that `Run` returns is the one these `n` reads and writes
of the bus primitives produce (memory and budget; the interrupt flags with the
completion interrupt ORed in); the deltas are `+2, -2, 0, +2` (halfword) and
`+4, -4, 0, +4` (word) for increment, decrement, fixed, reload; and a
non-repeating channel ends with internal length 0 and both addresses advanced
`n` times. The internal addresses at entry are 32-bit values. -/
theorem C8_full_drain (C : Consts) (B : Bus) (s : DMAController) (cpu : CPU)
    (hil : s.dma_interleaved = false)
    (hsrc : (s.dma s.dma_current).internal.src_addr < 4294967296)
    (hdst : (s.dma s.dma_current).internal.dst_addr < 4294967296)
    (hbudget : ∀ k, k < (s.dma s.dma_current).internal.length →
      0 < (specCopyCPU B (decide ((s.dma s.dma_current).size = DMA_WORD))
        (modify (s.dma s.dma_current).size (s.dma s.dma_current).src_cntl)
        (modify (s.dma s.dma_current).size (s.dma s.dma_current).dst_cntl)
        (s.dma s.dma_current).internal.src_addr (s.dma s.dma_current).internal.dst_addr
        cpu k).run_until) :
    let d := s.dma s.dma_current
    let words := decide (d.size = DMA_WORD)
    let dSrc := modify d.size d.src_cntl
    let dDst := modify d.size d.dst_cntl
    let n := d.internal.length
    let src := d.internal.src_addr
    let dst := d.internal.dst_addr
    (Run C B s cpu).completed = true ∧
    (Run C B s cpu).trace.length = 2 * n ∧
    (∀ k, k < n →
      (Run C B s cpu).trace.get? (2 * k) =
        some (BusEvent.read words (addN32 src dSrc k)
          (specCopyWord B words dSrc src (specCopyCPU B words dSrc dDst src dst cpu k) k)) ∧
      (Run C B s cpu).trace.get? (2 * k + 1) =
        some (BusEvent.write words (addN32 dst dDst k)
          (specCopyWord B words dSrc src (specCopyCPU B words dSrc dDst src dst cpu k) k))) ∧
    (Run C B s cpu).cpu.memory = (specCopyCPU B words dSrc dDst src dst cpu n).memory ∧
    (Run C B s cpu).cpu.run_until = (specCopyCPU B words dSrc dDst src dst cpu n).run_until ∧
    (Run C B s cpu).cpu.irq_if =
      (if d.interrupt = true then
        (specCopyCPU B words dSrc dDst src dst cpu n).irq_if ||| (C.INT_DMA0 <<< s.dma_current)
       else (specCopyCPU B words dSrc dDst src dst cpu n).irq_if) ∧
    (d.repeat_ = false →
      ((Run C B s cpu).ctl.dma s.dma_current).internal.length = 0 ∧
      ((Run C B s cpu).ctl.dma s.dma_current).internal.src_addr = addN32 src dSrc n ∧
      ((Run C B s cpu).ctl.dma s.dma_current).internal.dst_addr = addN32 dst dDst n) ∧
    (modify DMA_HWORD DMA_INCREMENT = 2 ∧ modify DMA_HWORD DMA_DECREMENT = -2 ∧
      modify DMA_HWORD DMA_FIXED = 0 ∧ modify DMA_HWORD DMA_RELOAD = 2 ∧
      modify DMA_WORD DMA_INCREMENT = 4 ∧ modify DMA_WORD DMA_DECREMENT = -4 ∧
      modify DMA_WORD DMA_FIXED = 0 ∧ modify DMA_WORD DMA_RELOAD = 4) := by
  intro d words dSrc dDst n src dst
  have hspec := cpuAfterUnits_eq_specCopyCPU B words dSrc dDst src dst cpu hsrc hdst
  have hbudget' : ∀ k, k < n → 0 < (cpuAfterUnits B words dSrc dDst k src dst cpu).run_until := by
    intro k hk
    rw [hspec k]
    exact hbudget k hk
  obtain ⟨h1, h2, h3⟩ := transferLoop_drain B words dSrc dDst n src dst cpu hsrc hdst hbudget'
  have hrl : runLoop B s cpu = transferLoop B words dSrc dDst n src dst false cpu := by
    unfold runLoop
    simp only [hil]
  have hfin : (runLoop B s cpu).finished = true := by rw [hrl]; exact h1
  have hF := transferLoop_finished B words dSrc dDst n src dst false cpu hsrc hdst h1
  have htr : (Run C B s cpu).trace = (transferLoop B words dSrc dDst n src dst false cpu).trace := by
    rw [run_of_finished C B s cpu hfin, hrl]
  have hcpu : (Run C B s cpu).cpu =
      raiseInterrupt C s.dma_current d (specCopyCPU B words dSrc dDst src dst cpu n) := by
    rw [run_of_finished C B s cpu hfin, hrl]
    show raiseInterrupt C s.dma_current _ (transferLoop B words dSrc dDst n src dst false cpu).cpu
      = _
    rw [h2, hspec n]
    rfl
  refine ⟨by rw [run_completed]; exact hfin, by rw [htr]; exact hF.2.2.2.2.1, ?_, ?_, ?_, ?_, ?_,
    by decide⟩
  · intro k hk
    rw [htr]
    obtain ⟨g1, g2⟩ := h3 k hk
    rw [g1, g2, hspec k, busRead_eq_specCopyWord]
    exact ⟨rfl, rfl⟩
  · rw [hcpu]
    unfold raiseInterrupt
    split_ifs <;> rfl
  · rw [hcpu]
    unfold raiseInterrupt
    split_ifs <;> rfl
  · rw [hcpu]
    unfold raiseInterrupt
    split_ifs <;> rfl
  · intro hrep
    have hrep2 : (afterLoop d (runLoop B s cpu)).repeat_ = false := hrep
    rw [run_of_finished C B s cpu hfin, reselect_dma]
    show ((setDMA s s.dma_current _).dma s.dma_current).internal.length = 0 ∧
      ((setDMA s s.dma_current _).dma s.dma_current).internal.src_addr = _ ∧
      ((setDMA s s.dma_current _).dma s.dma_current).internal.dst_addr = _
    rw [setDMA_dma_same, completeDMA_no_repeat _ _ _ _ _ hrep2]
    show (runLoop B s cpu).length = 0 ∧ (runLoop B s cpu).src_addr = _ ∧
      (runLoop B s cpu).dst_addr = _
    rw [hrl]
    exact ⟨hF.1, hF.2.1, hF.2.2.1⟩

/-- Witness of C8: the drain scenario of the spec (channel 0, immediate, word
units, length 4, increment/increment, source `0x02000000`, destination
`0x03000000`): one `Run` makes four word copies at ascending addresses
`0x02000000 + 4k -> 0x03000000 + 4k`; afterwards the memory of the CPU holds at
each destination address the word of the matching source address (`a + 7` at
address `a`), the source words are untouched, and the internal length is 0. -/
theorem C8_full_drain_witness :
    (drainScenario.dma drainScenario.dma_current).internal.length = 4 ∧
    drainScenario.dma_interleaved = false ∧
    (Run gbaConsts flatBus drainScenario sampleCPU).completed = true ∧
    (Run gbaConsts flatBus drainScenario sampleCPU).trace.length = 8 ∧
    (Run gbaConsts flatBus drainScenario sampleCPU).trace.get? 6
      = some (BusEvent.read true 0x0200000C 0x02000013) ∧
    (Run gbaConsts flatBus drainScenario sampleCPU).trace.get? 7
      = some (BusEvent.write true 0x0300000C 0x02000013) ∧
    (Run gbaConsts flatBus drainScenario sampleCPU).cpu.memory 0x03000000 = 0x02000007 ∧
    (Run gbaConsts flatBus drainScenario sampleCPU).cpu.memory 0x03000004 = 0x0200000B ∧
    (Run gbaConsts flatBus drainScenario sampleCPU).cpu.memory 0x03000008 = 0x0200000F ∧
    (Run gbaConsts flatBus drainScenario sampleCPU).cpu.memory 0x0300000C = 0x02000013 ∧
    (Run gbaConsts flatBus drainScenario sampleCPU).cpu.memory 0x03000010 = 0x03000017 ∧
    (Run gbaConsts flatBus drainScenario sampleCPU).cpu.memory 0x02000000 = 0x02000007 ∧
    ((Run gbaConsts flatBus drainScenario sampleCPU).ctl.dma 0).internal
      = { length := 0, dst_addr := 0x03000010, src_addr := 0x02000010 } ∧
    (Run gbaConsts flatBus drainScenario sampleCPU).trace =
      [BusEvent.read true 0x02000000 0x02000007, BusEvent.write true 0x03000000 0x02000007,
       BusEvent.read true 0x02000004 0x0200000B, BusEvent.write true 0x03000004 0x0200000B,
       BusEvent.read true 0x02000008 0x0200000F, BusEvent.write true 0x03000008 0x0200000F,
       BusEvent.read true 0x0200000C 0x02000013, BusEvent.write true 0x0300000C 0x02000013] :=
  have h := C8_full_drain gbaConsts flatBus drainScenario sampleCPU
    (by decide) (by decide) (by decide) (by decide)
  ⟨by decide, by decide, h.1, h.2.1.trans (by decide),
    (h.2.2.1 3 (by decide)).1.trans (by decide), (h.2.2.1 3 (by decide)).2.trans (by decide),
    (congrFun h.2.2.2.1 0x03000000).trans (by decide),
    (congrFun h.2.2.2.1 0x03000004).trans (by decide),
    (congrFun h.2.2.2.1 0x03000008).trans (by decide),
    (congrFun h.2.2.2.1 0x0300000C).trans (by decide),
    (congrFun h.2.2.2.1 0x03000010).trans (by decide),
    (congrFun h.2.2.2.1 0x02000000).trans (by decide),
    by decide, by decide⟩

/-- C9 (the code at the failing input): in `hblankScenario` channel 1 is
enabled, latched with length 4, set to hblank timing with repeat, and
registered in `dma_hblank_mask`; yet `TriggerHBlankDMA` leaves the run set
empty, also when called again, because it only re-marks channels that are in
the run set already; a following `Run` then works on the stale
`dma_current = 0`, makes no bus call and leaves channel 1 as latched. -/
theorem C9_hblank_trigger_schedules_nothing :
    (hblankScenario.dma 1).enable = true ∧
    (hblankScenario.dma 1).repeat_ = true ∧
    (hblankScenario.dma 1).time = DMA_HBLANK ∧
    (hblankScenario.dma 1).dst_cntl = DMA_RELOAD ∧
    (hblankScenario.dma 1).internal = { length := 4, dst_addr := 0x03000000, src_addr := 0x02000000 } ∧
    hblankScenario.dma_hblank_mask = 2 ∧
    hblankScenario.dma_run_set = 0 ∧
    (TriggerHBlankDMA hblankScenario).dma_run_set = 0 ∧
    (TriggerHBlankDMA hblankScenario).dma_run_set.testBit 1 = false ∧
    (TriggerHBlankDMA (TriggerHBlankDMA hblankScenario)).dma_run_set = 0 ∧
    (Run gbaConsts flatBus (TriggerHBlankDMA hblankScenario) sampleCPU).trace = [] ∧
    ((Run gbaConsts flatBus (TriggerHBlankDMA hblankScenario) sampleCPU).ctl.dma 1).internal
      = (hblankScenario.dma 1).internal := by
  decide

theorem afterLoop_same (d : DMA) (r : LoopResult) (h1 : r.length = d.internal.length)
    (h2 : r.dst_addr = d.internal.dst_addr) (h3 : r.src_addr = d.internal.src_addr) :
    afterLoop d r = d := by
  unfold afterLoop
  rw [h1, h2, h3]

/-- C10: if the budget is non-positive at the entry of `Run` and the internal
length of the current channel is not zero, `Run` returns through the budget
check: it makes no bus call, leaves the CPU state (budget, interrupt flags,
memory) as it is, and leaves the whole controller state unchanged, the
preemption flag included. -/
theorem C10_budget_exhausted_no_effect (C : Consts) (B : Bus) (s : DMAController) (cpu : CPU)
    (hb : cpu.run_until ≤ 0) (hl : (s.dma s.dma_current).internal.length ≠ 0) :
    (Run C B s cpu).ctl = s ∧ (Run C B s cpu).cpu = cpu ∧ (Run C B s cpu).trace = [] ∧
    (Run C B s cpu).completed = false := by
  obtain ⟨n, hn⟩ := Nat.exists_eq_succ_of_ne_zero hl
  have hrl : runLoop B s cpu =
      { finished := false, length := (s.dma s.dma_current).internal.length,
        src_addr := (s.dma s.dma_current).internal.src_addr,
        dst_addr := (s.dma s.dma_current).internal.dst_addr,
        interleaved := s.dma_interleaved, cpu := cpu, trace := [] } := by
    unfold runLoop
    simp only [hn]
    exact transferLoop_budget B _ _ _ n _ _ _ cpu hb
  have hf : (runLoop B s cpu).finished = false := by rw [hrl]
  rw [run_of_not_finished C B s cpu hf, hrl]
  refine ⟨?_, rfl, rfl, rfl⟩
  have ha : afterLoop (s.dma s.dma_current)
      { finished := false, length := (s.dma s.dma_current).internal.length,
        src_addr := (s.dma s.dma_current).internal.src_addr,
        dst_addr := (s.dma s.dma_current).internal.dst_addr,
        interleaved := s.dma_interleaved, cpu := cpu, trace := [] } = s.dma s.dma_current :=
    afterLoop_same _ _ rfl rfl rfl
  simp only [ha, setDMA_self]

/-- Witness of C10: `drainScenario` with a budget of 0. -/
theorem C10_budget_exhausted_no_effect_witness :
    (drainScenario.dma drainScenario.dma_current).internal.length = 4 ∧
    (Run gbaConsts flatBus drainScenario { sampleCPU with run_until := 0 }).trace = [] ∧
    (Run gbaConsts flatBus drainScenario { sampleCPU with run_until := 0 }).ctl = drainScenario :=
  have h := C10_budget_exhausted_no_effect gbaConsts flatBus drainScenario
    { sampleCPU with run_until := 0 } (by decide) (by decide)
  ⟨by decide, h.2.2.1, h.1⟩

/-- C12: `Read` returns 0 at every offset other than 10 and 11 (the offsets
0..9 and every offset outside 0..11, negative ones included), and `Write` at an
offset outside 0..11 leaves the whole controller state unchanged. -/
theorem C12_unsupported_offsets (C : Consts) (s : DMAController) (id : Nat) (offset : Int)
    (v : Nat) :
    (offset ≠ 10 → offset ≠ 11 → Read s id offset = 0) ∧
    (offset < 0 ∨ 11 < offset → Write C s id offset v = s) := by
  constructor
  · intro h10 h11
    unfold Read
    split
    · exact absurd rfl h10
    · exact absurd rfl h11
    · rfl
  · intro h
    unfold Write
    split <;> first | rfl | omega

/-- Witness of C12: offsets 4, 12 and -1 after the drain scenario. -/
theorem C12_unsupported_offsets_witness :
    Read drainScenario 0 4 = 0 ∧ Read drainScenario 0 12 = 0 ∧ Read drainScenario 0 (-1) = 0 ∧
    Write gbaConsts drainScenario 0 12 0xFF = drainScenario ∧
    Write gbaConsts drainScenario 0 (-1) 0xFF = drainScenario :=
  ⟨(C12_unsupported_offsets gbaConsts drainScenario 0 4 0).1 (by decide) (by decide),
   (C12_unsupported_offsets gbaConsts drainScenario 0 12 0).1 (by decide) (by decide),
   (C12_unsupported_offsets gbaConsts drainScenario 0 (-1) 0).1 (by decide) (by decide),
   (C12_unsupported_offsets gbaConsts drainScenario 0 12 0xFF).2 (Or.inr (by decide)),
   (C12_unsupported_offsets gbaConsts drainScenario 0 (-1) 0xFF).2 (Or.inl (by decide))⟩

/-- C13: the table `g_dma_from_bitset` has 16 entries; entry 0 is `-1`, and for
every bitset `b` in `1..15` the entry is the index of the lowest set bit of `b`:
the only `i` in `0..3` with bit `i` set in `b` and no lower bit set. -/
theorem C13_table_lowest_set_bit :
    g_dma_from_bitset.length = 16 ∧
    g_dma_from_bitset.get? 0 = some (-1) ∧
    dmaFromBitset 0 = -1 ∧
    ∀ b, b < 16 → 1 ≤ b →
      ∃ i : Nat, i < 4 ∧ g_dma_from_bitset.get? b = some (i : Int) ∧ dmaFromBitset b = (i : Int) ∧
        b.testBit i = true ∧ (∀ j, j < i → b.testBit j = false) ∧
        ∀ k, k < 4 → b.testBit k = true → (∀ j, j < k → b.testBit j = false) → k = i := by
  have hmain : ∀ b, b < 16 → 1 ≤ b →
      ∃ i : Nat, i < 4 ∧ g_dma_from_bitset.get? b = some (i : Int) ∧ dmaFromBitset b = (i : Int) ∧
        b.testBit i = true ∧ ∀ j, j < i → b.testBit j = false := by
    decide
  refine ⟨by decide, by decide, by decide, ?_⟩
  intro b hb h1
  obtain ⟨i, hi, hg, hd, hbit, hlow⟩ := hmain b hb h1
  refine ⟨i, hi, hg, hd, hbit, hlow, ?_⟩
  intro k _ hk hklow
  rcases Nat.lt_trichotomy k i with h | h | h
  · rw [hlow k h] at hk; cases hk
  · exact h
  · rw [hklow i h] at hbit; cases hbit

/-- C17: if at the entry of `Run` the budget is positive, the internal length of
the current channel is not zero and the preemption flag is set, `Run` clears the
flag and returns: no bus call, the CPU state untouched, and nothing else in the
controller changed (every channel, the run set, the current channel and the
blank masks). -/
theorem C17_preemption_flag_step (C : Consts) (B : Bus) (s : DMAController) (cpu : CPU)
    (hb : 0 < cpu.run_until) (hl : (s.dma s.dma_current).internal.length ≠ 0)
    (hil : s.dma_interleaved = true) :
    (Run C B s cpu).ctl = { s with dma_interleaved := false } ∧
    (Run C B s cpu).cpu = cpu ∧ (Run C B s cpu).trace = [] ∧
    (Run C B s cpu).completed = false := by
  obtain ⟨n, hn⟩ := Nat.exists_eq_succ_of_ne_zero hl
  have hrl : runLoop B s cpu =
      { finished := false, length := (s.dma s.dma_current).internal.length,
        src_addr := (s.dma s.dma_current).internal.src_addr,
        dst_addr := (s.dma s.dma_current).internal.dst_addr,
        interleaved := false, cpu := cpu, trace := [] } := by
    unfold runLoop
    simp only [hn, hil]
    exact transferLoop_preempted B _ _ _ n _ _ cpu hb
  have hf : (runLoop B s cpu).finished = false := by rw [hrl]
  rw [run_of_not_finished C B s cpu hf, hrl]
  refine ⟨?_, rfl, rfl, rfl⟩
  have ha : afterLoop (s.dma s.dma_current)
      { finished := false, length := (s.dma s.dma_current).internal.length,
        src_addr := (s.dma s.dma_current).internal.src_addr,
        dst_addr := (s.dma s.dma_current).internal.dst_addr,
        interleaved := false, cpu := cpu, trace := [] } = s.dma s.dma_current :=
    afterLoop_same _ _ rfl rfl rfl
  simp only [ha, setDMA_self]

/-- Witness of C17: channel 0 preempts channel 2 in `preemptScenario`; the next
`Run` only clears the flag and leaves the length of channel 0 at 2. -/
theorem C17_preemption_flag_step_witness :
    (MarkDMAForExecution preemptScenario 0).dma_interleaved = true ∧
    (Run gbaConsts flatBus (MarkDMAForExecution preemptScenario 0) sampleCPU).ctl.dma_interleaved
      = false ∧
    ((Run gbaConsts flatBus (MarkDMAForExecution preemptScenario 0) sampleCPU).ctl.dma 0).internal.length
      = 2 ∧
    (Run gbaConsts flatBus (MarkDMAForExecution preemptScenario 0) sampleCPU).trace = [] :=
  have h := C17_preemption_flag_step gbaConsts flatBus (MarkDMAForExecution preemptScenario 0)
    sampleCPU (by decide) (by decide) (by decide)
  ⟨by decide, by rw [h.1], by rw [h.1]; decide, h.2.2.1⟩

/-- Marking a member of a non-empty run set that is not below the current
channel changes nothing. -/
theorem mark_eq_self (s : DMAController) (j : Nat) (h0 : s.dma_run_set ≠ 0)
    (hge : ¬ j < s.dma_current) (hbit : s.dma_run_set.testBit j = true) :
    MarkDMAForExecution s j = s := by
  unfold MarkDMAForExecution
  simp only [h0, hge, if_false, or_one_shiftLeft_of_testBit _ _ hbit]

theorem dmaFromBitset_and_mem (rs mask : Nat) (h : 0 ≤ dmaFromBitset (rs &&& mask)) :
    rs.testBit (dmaFromBitset (rs &&& mask)).toNat = true := by
  have hlt : rs &&& mask < 16 := by
    by_contra hge
    rw [dmaFromBitset_large _ (not_lt.mp hge)] at h
    omega
  have := dmaFromBitset_mem _ hlt h
  rw [Nat.testBit_and] at this
  exact (Bool.and_eq_true _ _ ▸ this).1

/-- Under the arbitration invariant, marking the channel the table picks from
`rs &&& mask` is the identity. -/
theorem mark_picked_eq_self (s : DMAController) (mask : Nat)
    (hinv : s.dma_run_set ≠ 0 →
      s.dma_run_set.testBit s.dma_current = true ∧
      ∀ j, j < s.dma_current → s.dma_run_set.testBit j = false)
    (h : 0 ≤ dmaFromBitset (s.dma_run_set &&& mask)) :
    MarkDMAForExecution s (dmaFromBitset (s.dma_run_set &&& mask)).toNat = s := by
  have hbit := dmaFromBitset_and_mem s.dma_run_set mask h
  have h0 : s.dma_run_set ≠ 0 := Nat.pos_iff_ne_zero.mp (testBit_pos _ _ hbit)
  refine mark_eq_self s _ h0 ?_ hbit
  intro hlt
  rw [(hinv h0).2 _ hlt] at hbit
  cases hbit

/-- C20: for every controller state with the run set in `0..15`, the two blank
triggers leave the run set, every channel and the blank masks unchanged; and in
every state that satisfies the arbitration invariant (with a non-empty run set,
the current channel is a member below which no bit is set) they leave the
current channel and the preemption flag unchanged as well: they are the
identity on the controller state. -/
theorem C20_blank_triggers_schedule_nothing (s : DMAController) :
    (s.dma_run_set < 16 →
      (TriggerHBlankDMA s).dma_run_set = s.dma_run_set ∧ (TriggerHBlankDMA s).dma = s.dma ∧
      (TriggerHBlankDMA s).dma_hblank_mask = s.dma_hblank_mask ∧
      (TriggerHBlankDMA s).dma_vblank_mask = s.dma_vblank_mask ∧
      (TriggerVBlankDMA s).dma_run_set = s.dma_run_set ∧ (TriggerVBlankDMA s).dma = s.dma ∧
      (TriggerVBlankDMA s).dma_hblank_mask = s.dma_hblank_mask ∧
      (TriggerVBlankDMA s).dma_vblank_mask = s.dma_vblank_mask) ∧
    ((s.dma_run_set ≠ 0 →
        s.dma_run_set.testBit s.dma_current = true ∧
        ∀ j, j < s.dma_current → s.dma_run_set.testBit j = false) →
      TriggerHBlankDMA s = s ∧ TriggerVBlankDMA s = s) := by
  constructor
  · intro _
    refine ⟨triggerHBlank_run_set s, triggerHBlank_dma s, ?_, ?_, triggerVBlank_run_set s,
      triggerVBlank_dma s, ?_, ?_⟩
    · unfold TriggerHBlankDMA; simp only []; split_ifs <;> simp
    · unfold TriggerHBlankDMA; simp only []; split_ifs <;> simp
    · unfold TriggerVBlankDMA; simp only []; split_ifs <;> simp
    · unfold TriggerVBlankDMA; simp only []; split_ifs <;> simp
  · intro hinv
    constructor
    · unfold TriggerHBlankDMA
      simp only []
      split_ifs with h
      · exact mark_picked_eq_self s _ hinv h
      · rfl
    · unfold TriggerVBlankDMA
      simp only []
      split_ifs with h
      · exact mark_picked_eq_self s _ hinv h
      · rfl

/-- Witness of C20: in `hblankScenario` channel 1 waits for hblank with an
empty run set; in `preemptScenario` channel 2 runs alone: the triggers change
neither state. -/
theorem C20_blank_triggers_schedule_nothing_witness :
    hblankScenario.dma_run_set = 0 ∧ TriggerHBlankDMA hblankScenario = hblankScenario ∧
    preemptScenario.dma_run_set = 4 ∧ preemptScenario.dma_current = 2 ∧
    TriggerVBlankDMA preemptScenario = preemptScenario ∧
    (TriggerHBlankDMA preemptScenario).dma_run_set = 4 :=
  ⟨by decide,
   ((C20_blank_triggers_schedule_nothing hblankScenario).2 (fun h => absurd (by decide) h)).1,
   by decide, by decide,
   ((C20_blank_triggers_schedule_nothing preemptScenario).2
      (fun _ => ⟨by decide, by decide⟩)).2,
   ((C20_blank_triggers_schedule_nothing preemptScenario).1 (by decide)).1.trans (by decide)⟩

theorem arbitrated_congr (s t : DMAController) (h1 : t.dma_run_set = s.dma_run_set)
    (h2 : t.dma_current = s.dma_current) (h : Arbitrated s) : Arbitrated t := by
  unfold Arbitrated at h ⊢
  rw [h1, h2]
  exact h

theorem one_shiftLeft_lt_16 (id : Nat) (hid : id < 4) : 1 <<< id < 2 ^ 4 := by
  rw [Nat.one_shiftLeft]
  exact Nat.pow_lt_pow_right (by norm_num) hid

theorem arbitrated_mark (s : DMAController) (id : Nat) (hid : id < 4) (h : Arbitrated s) :
    Arbitrated (MarkDMAForExecution s id) := by
  obtain ⟨hlt, hinv⟩ := h
  refine ⟨?_, fun _ => ?_⟩
  · rw [mark_run_set]
    exact Nat.or_lt_two_pow (by simpa using hlt) (one_shiftLeft_lt_16 id hid)
  · rw [mark_run_set, mark_current]
    by_cases h0 : s.dma_run_set = 0
    · simp only [h0, if_true, Nat.zero_or]
      refine ⟨by rw [testBit_one_shiftLeft]; simp, fun j hj => ?_⟩
      rw [testBit_one_shiftLeft]
      simp; omega
    · obtain ⟨hc, hlow⟩ := hinv h0
      simp only [h0, if_false]
      by_cases hlt2 : id < s.dma_current
      · simp only [hlt2, if_true]
        refine ⟨by rw [Nat.testBit_or, testBit_one_shiftLeft]; simp, fun j hj => ?_⟩
        rw [Nat.testBit_or, testBit_one_shiftLeft, hlow j (by omega)]
        simp; omega
      · simp only [hlt2, if_false]
        refine ⟨by rw [Nat.testBit_or, hc, Bool.true_or], fun j hj => ?_⟩
        rw [Nat.testBit_or, testBit_one_shiftLeft, hlow j hj]
        simp; omega

theorem dmaFromBitset_is_lowest :
    ∀ b, b < 16 → 1 ≤ b →
      b.testBit (dmaFromBitset b).toNat = true ∧
      ∀ j, j < (dmaFromBitset b).toNat → b.testBit j = false := by
  decide

theorem arbitrated_reselect (s : DMAController) (h : s.dma_run_set < 16) :
    Arbitrated (reselect s) := by
  refine ⟨by rw [reselect_run_set]; exact h, ?_⟩
  rw [reselect_run_set]
  intro h0
  have hpos : 0 < s.dma_run_set := Nat.pos_of_ne_zero h0
  have hc : (reselect s).dma_current = (dmaFromBitset s.dma_run_set).toNat := by
    unfold reselect
    simp only [hpos, if_true]
  rw [hc]
  exact dmaFromBitset_is_lowest _ h hpos

theorem arbitrated_run (C : Consts) (B : Bus) (s : DMAController) (cpu : CPU)
    (h : Arbitrated s) : Arbitrated (Run C B s cpu).ctl := by
  cases hf : (runLoop B s cpu).finished
  · rw [run_of_not_finished C B s cpu hf]
    exact arbitrated_congr s _ rfl rfl h
  · rw [run_of_finished C B s cpu hf]
    apply arbitrated_reselect
    show (completeDMA C s.dma_current _ _ s.dma_run_set).2 < 16
    rcases completeDMA_run_set_cases C s.dma_current (s.dma s.dma_current).dst_cntl
      (afterLoop (s.dma s.dma_current) (runLoop B s cpu)) s.dma_run_set with e | e
    · rw [e]; exact h.1
    · rw [e]; exact Nat.lt_of_le_of_lt Nat.and_le_left h.1

/-- A register write at an offset other than 11 changes nothing but the
channel written. -/
theorem write_other_offset_frame (C : Consts) (s : DMAController) (id : Nat) (offset : Int)
    (v : Nat) (h : offset ≠ 11) :
    (Write C s id offset v).dma_run_set = s.dma_run_set ∧
    (Write C s id offset v).dma_current = s.dma_current ∧
    (Write C s id offset v).dma_interleaved = s.dma_interleaved ∧
    (Write C s id offset v).dma_hblank_mask = s.dma_hblank_mask ∧
    (Write C s id offset v).dma_vblank_mask = s.dma_vblank_mask ∧
    ∀ k, k ≠ id → (Write C s id offset v).dma k = s.dma k := by
  unfold Write
  split
  all_goals first
    | exact absurd rfl h
    | exact ⟨rfl, rfl, rfl, rfl, rfl, fun k _ => rfl⟩
    | exact ⟨rfl, rfl, rfl, rfl, rfl, fun k hk => setDMA_dma_ne s id k _ hk⟩

theorem arbitrated_writeCntH (C : Consts) (s : DMAController) (id v : Nat) (hid : id < 4)
    (h : Arbitrated s) : Arbitrated (WriteCntH C s id v) := by
  unfold WriteCntH
  simp only []
  split_ifs
  · exact arbitrated_mark _ id hid (arbitrated_congr s _ (by simp) (by simp) h)
  · exact arbitrated_congr s _ (by simp) (by simp) h
  · exact arbitrated_congr s _ (by simp) (by simp) h

theorem triggerHBlank_eq_self (s : DMAController) (h : Arbitrated s) :
    TriggerHBlankDMA s = s := by
  unfold TriggerHBlankDMA
  simp only []
  split_ifs with hp
  · exact mark_picked_eq_self s _ h.2 hp
  · rfl

theorem triggerVBlank_eq_self (s : DMAController) (h : Arbitrated s) :
    TriggerVBlankDMA s = s := by
  unfold TriggerVBlankDMA
  simp only []
  split_ifs with hp
  · exact mark_picked_eq_self s _ h.2 hp
  · rfl

theorem arbitrated_step (C : Consts) (B : Bus) (s : DMAController) (op : Op)
    (hop : op.valid = true) (h : Arbitrated s) : Arbitrated (step C B s op) := by
  cases op with
  | run cpu => exact arbitrated_run C B s cpu h
  | hblank =>
    show Arbitrated (TriggerHBlankDMA s)
    rw [triggerHBlank_eq_self s h]
    exact h
  | vblank =>
    show Arbitrated (TriggerVBlankDMA s)
    rw [triggerVBlank_eq_self s h]
    exact h
  | mark id => exact arbitrated_mark s id (by simpa [Op.valid] using hop) h
  | write id offset v =>
    show Arbitrated (Write C s id offset v)
    have hid : id < 4 := by simpa [Op.valid] using hop
    by_cases ho : offset = 11
    · subst ho
      exact arbitrated_writeCntH C s id v hid h
    · obtain ⟨h1, h2, _⟩ := write_other_offset_frame C s id offset v ho
      exact arbitrated_congr s _ h1 h2 h

theorem arbitrated_exec (C : Consts) (B : Bus) (ops : List Op) :
    ∀ s : DMAController, (∀ op ∈ ops, op.valid = true) → Arbitrated s →
      Arbitrated (exec C B s ops) := by
  induction ops with
  | nil => intro s _ h; exact h
  | cons op rest ih =>
    intro s hall h
    exact ih (step C B s op) (fun o ho => hall o (List.mem_cons_of_mem _ ho))
      (arbitrated_step C B s op (hall op (List.mem_cons_self _ _)) h)

theorem arbitrated_reset : Arbitrated Reset :=
  ⟨by decide, fun h => absurd rfl h⟩

/-- C15: in every state reached from `Reset` by a sequence of register writes,
`MarkDMAForExecution`, blank triggers and `Run` (on channels `0..3`), the run
set has four bits and, whenever it is not empty, the current channel is in
`0..3`, has its bit set in the run set, and no channel of lower index has. -/
theorem C15_arbitration_invariant (C : Consts) (B : Bus) (ops : List Op)
    (hvalid : ∀ op ∈ ops, op.valid = true) :
    (exec C B Reset ops).dma_run_set < 16 ∧
    ((exec C B Reset ops).dma_run_set ≠ 0 →
      (exec C B Reset ops).dma_current < 4 ∧
      (exec C B Reset ops).dma_run_set.testBit (exec C B Reset ops).dma_current = true ∧
      ∀ j, j < (exec C B Reset ops).dma_current →
        (exec C B Reset ops).dma_run_set.testBit j = false) := by
  obtain ⟨h1, h2⟩ := arbitrated_exec C B ops Reset hvalid arbitrated_reset
  refine ⟨h1, fun h0 => ⟨?_, (h2 h0).1, (h2 h0).2⟩⟩
  by_contra hge
  have hbit := (h2 h0).1
  have hlt : (exec C B Reset ops).dma_run_set < 2 ^ (exec C B Reset ops).dma_current :=
    Nat.lt_of_lt_of_le h1 (by
      calc 16 = 2 ^ 4 := by norm_num
        _ ≤ 2 ^ (exec C B Reset ops).dma_current :=
          Nat.pow_le_pow_right (by norm_num) (not_lt.mp hge))
  rw [Nat.testBit_lt_two_pow hlt] at hbit
  cases hbit

/-- Witness of C15: channels 2 and 1 are enabled for immediate execution, an
hblank fires, channel 3 is marked and `Run` is called twice: channel 2 is current
(channel 1 has completed) and it is the lowest member of the run set `{2, 3}`. -/
theorem C15_arbitration_invariant_witness :
    (exec gbaConsts flatBus Reset
      [Op.write 2 11 0x80, Op.write 1 8 1, Op.write 1 11 0x80, Op.hblank, Op.mark 3,
        Op.run sampleCPU, Op.run sampleCPU]).dma_run_set = 12 ∧
    (exec gbaConsts flatBus Reset
      [Op.write 2 11 0x80, Op.write 1 8 1, Op.write 1 11 0x80, Op.hblank, Op.mark 3,
        Op.run sampleCPU, Op.run sampleCPU]).dma_current < 4 ∧
    (exec gbaConsts flatBus Reset
      [Op.write 2 11 0x80, Op.write 1 8 1, Op.write 1 11 0x80, Op.hblank, Op.mark 3,
        Op.run sampleCPU, Op.run sampleCPU]).dma_current = 2 :=
  ⟨by decide,
   ((C15_arbitration_invariant gbaConsts flatBus
      [Op.write 2 11 0x80, Op.write 1 8 1, Op.write 1 11 0x80, Op.hblank, Op.mark 3,
        Op.run sampleCPU, Op.run sampleCPU] (by decide)).2 (by decide)).1,
   by decide⟩

theorem updateBlankMasks_hblank_bit (s : DMAController) (id k : Nat) (t : DMATime)
    (hk : k < 32) :
    (updateBlankMasks s id t).dma_hblank_mask.testBit k =
      if k = id then decide (t = DMA_HBLANK) else s.dma_hblank_mask.testBit k := by
  by_cases hki : k = id
  · subst hki
    cases t <;>
      simp [-Nat.testBit_shiftLeft, updateBlankMasks, Nat.testBit_or, testBit_one_shiftLeft, testBit_clear_same _ _ hk]
  · cases t <;>
      simp [-Nat.testBit_shiftLeft, updateBlankMasks, Nat.testBit_or, testBit_one_shiftLeft, testBit_clear_ne _ _ _ hk hki,
        hki, Ne.symm hki]

theorem updateBlankMasks_vblank_bit (s : DMAController) (id k : Nat) (t : DMATime)
    (hk : k < 32) :
    (updateBlankMasks s id t).dma_vblank_mask.testBit k =
      if k = id then decide (t = DMA_VBLANK) else s.dma_vblank_mask.testBit k := by
  by_cases hki : k = id
  · subst hki
    cases t <;>
      simp [-Nat.testBit_shiftLeft, updateBlankMasks, Nat.testBit_or, testBit_one_shiftLeft, testBit_clear_same _ _ hk]
  · cases t <;>
      simp [-Nat.testBit_shiftLeft, updateBlankMasks, Nat.testBit_or, testBit_one_shiftLeft, testBit_clear_ne _ _ _ hk hki,
        hki, Ne.symm hki]

theorem masksSynced_congr (s t : DMAController) (h1 : t.dma_hblank_mask = s.dma_hblank_mask)
    (h2 : t.dma_vblank_mask = s.dma_vblank_mask) (h3 : ∀ k, (t.dma k).time = (s.dma k).time)
    (h : MasksSynced s) : MasksSynced t := by
  unfold MasksSynced at h ⊢
  rw [h1, h2]
  exact ⟨h.1, h.2.1, fun id hid => by rw [h3 id]; exact h.2.2 id hid⟩

theorem updateBlankMasks_lt (s : DMAController) (id : Nat) (t : DMATime) (hid : id < 4)
    (hh : s.dma_hblank_mask < 16) (hv : s.dma_vblank_mask < 16) :
    (updateBlankMasks s id t).dma_hblank_mask < 16 ∧
    (updateBlankMasks s id t).dma_vblank_mask < 16 := by
  have hor : ∀ x, x < 16 → x ||| (1 <<< id) < 16 := fun x hx =>
    Nat.or_lt_two_pow (by simpa using hx) (one_shiftLeft_lt_16 id hid)
  have hand : ∀ x, x < 16 → x &&& not32 (1 <<< id) < 16 := fun x hx =>
    Nat.lt_of_le_of_lt Nat.and_le_left hx
  cases t <;> simp only [updateBlankMasks, reduceCtorEq, if_true, if_false] <;>
    first
    | exact ⟨hor _ hh, hand _ hv⟩
    | exact ⟨hand _ hh, hor _ hv⟩
    | exact ⟨hand _ hh, hand _ hv⟩

theorem writeCntH_masks (C : Consts) (s : DMAController) (id v : Nat) :
    (WriteCntH C s id v).dma_hblank_mask =
      (updateBlankMasks s id (decodeCntH (s.dma id) v).time).dma_hblank_mask ∧
    (WriteCntH C s id v).dma_vblank_mask =
      (updateBlankMasks s id (decodeCntH (s.dma id) v).time).dma_vblank_mask ∧
    ((WriteCntH C s id v).dma id).time = (decodeCntH (s.dma id) v).time := by
  unfold WriteCntH
  simp only []
  split_ifs <;> simp [latch]

theorem masksSynced_writeCntH (C : Consts) (s : DMAController) (id v : Nat) (hid : id < 4)
    (h : MasksSynced s) : MasksSynced (WriteCntH C s id v) := by
  obtain ⟨hh, hv, hs⟩ := h
  obtain ⟨m1, m2, m3⟩ := writeCntH_masks C s id v
  obtain ⟨l1, l2⟩ := updateBlankMasks_lt s id (decodeCntH (s.dma id) v).time hid hh hv
  refine ⟨by rw [m1]; exact l1, by rw [m2]; exact l2, ?_⟩
  intro k hk
  rw [m1, m2, updateBlankMasks_hblank_bit s id k _ (by omega),
    updateBlankMasks_vblank_bit s id k _ (by omega)]
  by_cases hki : k = id
  · subst hki
    rw [m3]
    simp
  · rw [(writeCntH_other C s id k v hki).2]
    simp only [hki, if_false]
    exact hs k hk

theorem run_masks (C : Consts) (B : Bus) (s : DMAController) (cpu : CPU) :
    (Run C B s cpu).ctl.dma_hblank_mask = s.dma_hblank_mask ∧
    (Run C B s cpu).ctl.dma_vblank_mask = s.dma_vblank_mask := by
  cases hf : (runLoop B s cpu).finished
  · rw [run_of_not_finished C B s cpu hf]; exact ⟨rfl, rfl⟩
  · rw [run_of_finished C B s cpu hf]
    exact ⟨by rw [reselect_hblank_mask]; rfl, by rw [reselect_vblank_mask]; rfl⟩

theorem completeDMA_time (C : Consts) (cur : Nat) (dc : DMAControl) (d : DMA) (rs : Nat) :
    (completeDMA C cur dc d rs).1.time = d.time := by
  unfold completeDMA
  by_cases hr : d.repeat_ = true
  · by_cases hc : dc = DMA_RELOAD <;> simp [hr, hc]
  · simp [hr]

theorem run_time (C : Consts) (B : Bus) (s : DMAController) (cpu : CPU) (k : Nat) :
    ((Run C B s cpu).ctl.dma k).time = (s.dma k).time := by
  by_cases hk : k = s.dma_current
  · subst hk
    cases hf : (runLoop B s cpu).finished
    · rw [run_of_not_finished C B s cpu hf]
      show ((setDMA s s.dma_current _).dma s.dma_current).time = _
      rw [setDMA_dma_same]; rfl
    · rw [run_of_finished C B s cpu hf, reselect_dma]
      show ((setDMA s s.dma_current _).dma s.dma_current).time = _
      rw [setDMA_dma_same, completeDMA_time]; rfl
  · rw [run_dma_other C B s cpu k hk]

theorem write_other_offset_time (C : Consts) (s : DMAController) (id : Nat) (offset : Int)
    (v : Nat) (h : offset ≠ 11) (k : Nat) :
    ((Write C s id offset v).dma k).time = (s.dma k).time := by
  by_cases hk : k = id
  · subst hk
    unfold Write
    split
    all_goals first
      | exact absurd rfl h
      | rfl
      | (rw [setDMA_dma_same])
  · rw [(write_other_offset_frame C s id offset v h).2.2.2.2.2 k hk]

theorem masksSynced_step (C : Consts) (B : Bus) (s : DMAController) (op : Op)
    (hop : op.valid = true) (h : MasksSynced s) : MasksSynced (step C B s op) := by
  cases op with
  | run cpu =>
    exact masksSynced_congr s _ (run_masks C B s cpu).1 (run_masks C B s cpu).2
      (run_time C B s cpu) h
  | hblank =>
    refine masksSynced_congr s _ ?_ ?_ (fun k => ?_) h
    · show (TriggerHBlankDMA s).dma_hblank_mask = _
      unfold TriggerHBlankDMA; simp only []; split_ifs <;> simp
    · show (TriggerHBlankDMA s).dma_vblank_mask = _
      unfold TriggerHBlankDMA; simp only []; split_ifs <;> simp
    · show ((TriggerHBlankDMA s).dma k).time = _
      rw [triggerHBlank_dma]
  | vblank =>
    refine masksSynced_congr s _ ?_ ?_ (fun k => ?_) h
    · show (TriggerVBlankDMA s).dma_hblank_mask = _
      unfold TriggerVBlankDMA; simp only []; split_ifs <;> simp
    · show (TriggerVBlankDMA s).dma_vblank_mask = _
      unfold TriggerVBlankDMA; simp only []; split_ifs <;> simp
    · show ((TriggerVBlankDMA s).dma k).time = _
      rw [triggerVBlank_dma]
  | mark id =>
    exact masksSynced_congr s _ (mark_hblank_mask s id) (mark_vblank_mask s id)
      (fun k => by show ((MarkDMAForExecution s id).dma k).time = _; rw [mark_dma]) h
  | write id offset v =>
    show MasksSynced (Write C s id offset v)
    have hid : id < 4 := by simpa [Op.valid] using hop
    by_cases ho : offset = 11
    · subst ho
      exact masksSynced_writeCntH C s id v hid h
    · obtain ⟨_, _, _, h4, h5, _⟩ := write_other_offset_frame C s id offset v ho
      exact masksSynced_congr s _ h4 h5 (write_other_offset_time C s id offset v ho) h

theorem masksSynced_exec (C : Consts) (B : Bus) (ops : List Op) :
    ∀ s : DMAController, (∀ op ∈ ops, op.valid = true) → MasksSynced s →
      MasksSynced (exec C B s ops) := by
  induction ops with
  | nil => intro s _ h; exact h
  | cons op rest ih =>
    intro s hall h
    exact ih (step C B s op) (fun o ho => hall o (List.mem_cons_of_mem _ ho))
      (masksSynced_step C B s op (hall op (List.mem_cons_self _ _)) h)

theorem masksSynced_reset : MasksSynced Reset := by
  refine ⟨by decide, by decide, fun id _ => ?_⟩
  simp [Reset, resetDMA]

/-- C16: in every state reached from `Reset` by a sequence of register writes,
`MarkDMAForExecution`, blank triggers and `Run` (on channels `0..3`), for every
channel `id` in `0..3` bit `id` of `dma_hblank_mask` is set iff the timing mode
of the channel is hblank and bit `id` of `dma_vblank_mask` is set iff it is
vblank; hence the two masks have no bit in common; and a control-high write to
channel `id`, in any state, changes no mask bit of another channel. -/
theorem C16_blank_masks_synced (C : Consts) (B : Bus) (ops : List Op)
    (hvalid : ∀ op ∈ ops, op.valid = true) :
    (∀ id, id < 4 →
      ((exec C B Reset ops).dma_hblank_mask.testBit id = true ↔
        ((exec C B Reset ops).dma id).time = DMA_HBLANK) ∧
      ((exec C B Reset ops).dma_vblank_mask.testBit id = true ↔
        ((exec C B Reset ops).dma id).time = DMA_VBLANK)) ∧
    (exec C B Reset ops).dma_hblank_mask &&& (exec C B Reset ops).dma_vblank_mask = 0 ∧
    (∀ (t : DMAController) (id v j : Nat), id < 4 → j < 4 → j ≠ id →
      (Write C t id 11 v).dma_hblank_mask.testBit j = t.dma_hblank_mask.testBit j ∧
      (Write C t id 11 v).dma_vblank_mask.testBit j = t.dma_vblank_mask.testBit j) := by
  obtain ⟨hh, hv, hs⟩ := masksSynced_exec C B ops Reset hvalid masksSynced_reset
  refine ⟨hs, ?_, ?_⟩
  · apply Nat.eq_of_testBit_eq
    intro i
    rw [Nat.testBit_and, Nat.zero_testBit]
    by_cases hi : i < 4
    · obtain ⟨h1, h2⟩ := hs i hi
      cases hb : (exec C B Reset ops).dma_hblank_mask.testBit i
      · rfl
      · cases hb2 : (exec C B Reset ops).dma_vblank_mask.testBit i
        · rfl
        · have e1 := h1.mp hb
          have e2 := h2.mp hb2
          rw [e1] at e2
          cases e2
    · have hlt : (exec C B Reset ops).dma_hblank_mask < 2 ^ i :=
        Nat.lt_of_lt_of_le hh (by
          calc 16 = 2 ^ 4 := by norm_num
            _ ≤ 2 ^ i := Nat.pow_le_pow_right (by norm_num) (not_lt.mp hi))
      rw [Nat.testBit_lt_two_pow hlt, Bool.false_and]
  · intro t id v j _ hj hne
    show (WriteCntH C t id v).dma_hblank_mask.testBit j = _ ∧
      (WriteCntH C t id v).dma_vblank_mask.testBit j = _
    obtain ⟨m1, m2, _⟩ := writeCntH_masks C t id v
    rw [m1, m2, updateBlankMasks_hblank_bit t id j _ (by omega),
      updateBlankMasks_vblank_bit t id j _ (by omega)]
    simp [hne]

/-- Witness of C16: channel 1 is set to hblank, then to vblank, channel 3 to
hblank, and a `Run` follows: bit 3 of the hblank mask and bit 1 of the vblank
mask are set, and the masks are disjoint. -/
theorem C16_blank_masks_synced_witness :
    (exec gbaConsts flatBus Reset
      [Op.write 1 11 0x20, Op.write 1 11 0x10, Op.write 3 11 0xA0, Op.run sampleCPU]).dma_hblank_mask
      &&&
    (exec gbaConsts flatBus Reset
      [Op.write 1 11 0x20, Op.write 1 11 0x10, Op.write 3 11 0xA0, Op.run sampleCPU]).dma_vblank_mask
      = 0 ∧
    (exec gbaConsts flatBus Reset
      [Op.write 1 11 0x20, Op.write 1 11 0x10, Op.write 3 11 0xA0, Op.run sampleCPU]).dma_hblank_mask
      = 8 ∧
    (exec gbaConsts flatBus Reset
      [Op.write 1 11 0x20, Op.write 1 11 0x10, Op.write 3 11 0xA0, Op.run sampleCPU]).dma_vblank_mask
      = 2 :=
  ⟨(C16_blank_masks_synced gbaConsts flatBus
      [Op.write 1 11 0x20, Op.write 1 11 0x10, Op.write 3 11 0xA0, Op.run sampleCPU]
      (by decide)).2.1,
   by decide, by decide⟩

/-- C18 (counterexample): channel 0 is enabled with immediate timing, which
schedules it, and a second control-high write clears its enable bit: the
channel is still in the run set, and disabled. -/
theorem C18_counterexample_disabled_in_run_set :
    (exec gbaConsts flatBus Reset [Op.write 0 11 0x80, Op.write 0 11 0x00]).dma_run_set.testBit 0
      = true ∧
    ((exec gbaConsts flatBus Reset [Op.write 0 11 0x80, Op.write 0 11 0x00]).dma 0).enable
      = false := by
  decide

theorem dmaFromBitset_toNat_lt (b : Nat) : (dmaFromBitset b).toNat < 4 := by
  by_cases h : b < 16
  · have : ∀ x, x < 16 → (dmaFromBitset x).toNat < 4 := by decide
    exact this b h
  · rw [dmaFromBitset_large b (not_lt.mp h)]
    decide

theorem mark_current_lt (s : DMAController) (id : Nat) (hid : id < 4)
    (hc : s.dma_current < 4) : (MarkDMAForExecution s id).dma_current < 4 := by
  rw [mark_current]
  split_ifs <;> assumption

theorem reselect_current_lt (s : DMAController) (hc : s.dma_current < 4) :
    (reselect s).dma_current < 4 := by
  unfold reselect
  split_ifs
  · exact dmaFromBitset_toNat_lt _
  · exact hc

theorem completeDMA_keeps_enable (C : Consts) (cur : Nat) (dc : DMAControl) (d : DMA)
    (rs : Nat) (hcur : cur < 32) (hen : d.enable = true)
    (hbit : (completeDMA C cur dc d rs).2.testBit cur = true) :
    (completeDMA C cur dc d rs).1.enable = true := by
  by_cases hr : d.repeat_ = true
  · rw [completeDMA_repeat _ _ _ _ _ hr]
    exact hen
  · have hr' : d.repeat_ = false := by simpa using hr
    rw [completeDMA_no_repeat _ _ _ _ _ hr'] at hbit
    rw [testBit_clear_same _ _ hcur] at hbit
    cases hbit

theorem armed_run (C : Consts) (B : Bus) (s : DMAController) (cpu : CPU) (h : Armed s) :
    Armed (Run C B s cpu).ctl := by
  obtain ⟨hc, hlt, harm⟩ := h
  cases hf : (runLoop B s cpu).finished
  · rw [run_of_not_finished C B s cpu hf]
    refine ⟨hc, hlt, fun id hid hbit => ?_⟩
    by_cases hk : id = s.dma_current
    · subst hk
      show ((setDMA s s.dma_current _).dma s.dma_current).enable = true
      rw [setDMA_dma_same]
      exact harm _ hid hbit
    · show ((setDMA s s.dma_current _).dma id).enable = true
      rw [setDMA_dma_ne _ _ _ _ hk]
      exact harm _ hid hbit
  · have hrs := run_run_set_cases C B s cpu
    have hcur : (Run C B s cpu).ctl.dma_current < 4 := by
      rw [run_of_finished C B s cpu hf]
      exact reselect_current_lt _ hc
    have hlt' : (Run C B s cpu).ctl.dma_run_set < 16 := by
      rcases hrs with e | e
      · rw [e]; exact hlt
      · rw [e]; exact Nat.lt_of_le_of_lt Nat.and_le_left hlt
    refine ⟨hcur, hlt', fun id hid hbit => ?_⟩
    have hbit0 : s.dma_run_set.testBit id = true := by
      rcases hrs with e | e
      · rw [e] at hbit; exact hbit
      · rw [e, Nat.testBit_and] at hbit
        exact (Bool.and_eq_true _ _ ▸ hbit).1
    by_cases hk : id = s.dma_current
    · subst hk
      rw [run_of_finished C B s cpu hf] at hbit ⊢
      simp only [reselect_run_set] at hbit
      rw [reselect_dma]
      show ((setDMA s s.dma_current _).dma s.dma_current).enable = true
      rw [setDMA_dma_same]
      exact completeDMA_keeps_enable C _ _ _ _ (by omega) (harm _ hid hbit0) hbit
    · rw [run_dma_other C B s cpu id hk]
      exact harm _ hid hbit0

theorem armed_congr (s t : DMAController) (h1 : t.dma_run_set = s.dma_run_set)
    (h2 : t.dma_current = s.dma_current) (h3 : ∀ k, (t.dma k).enable = (s.dma k).enable)
    (h : Armed s) : Armed t := by
  unfold Armed at h ⊢
  rw [h1, h2]
  exact ⟨h.1, h.2.1, fun id hid hbit => by rw [h3 id]; exact h.2.2 id hid hbit⟩

theorem armed_trigger_mark (s : DMAController) (mask : Nat) (h : Armed s)
    (hp : 0 ≤ dmaFromBitset (s.dma_run_set &&& mask)) :
    Armed (MarkDMAForExecution s (dmaFromBitset (s.dma_run_set &&& mask)).toNat) := by
  refine ⟨mark_current_lt s _ (dmaFromBitset_toNat_lt _) h.1, ?_, ?_⟩
  · rw [mark_picked_run_set s mask hp]; exact h.2.1
  · rw [mark_picked_run_set s mask hp, mark_dma]; exact h.2.2

theorem armed_writeCntH (C : Consts) (s : DMAController) (id v : Nat) (hid : id < 4)
    (hok : ¬ (v.testBit 7 = false ∧ s.dma_run_set.testBit id = true)) (h : Armed s) :
    Armed (WriteCntH C s id v) := by
  obtain ⟨hc, hlt, harm⟩ := h
  have hen : ((WriteCntH C s id v).dma id).enable = v.testBit 7 := write11_enable C s id v
  have hrs : (WriteCntH C s id v).dma_run_set = s.dma_run_set ∨
      ((WriteCntH C s id v).dma_run_set = s.dma_run_set ||| (1 <<< id) ∧ v.testBit 7 = true) := by
    unfold WriteCntH
    simp only []
    split_ifs with h1 h2
    · right
      refine ⟨by rw [mark_run_set]; simp, ?_⟩
      have : (decodeCntH (s.dma id) v).enable = true := by
        simp only [Bool.and_eq_true] at h1
        exact h1.2
      rw [decodeCntH_enable] at this
      exact this
    · left; simp
    · left; simp
  have hcur : (WriteCntH C s id v).dma_current < 4 := by
    unfold WriteCntH
    simp only []
    split_ifs
    · exact mark_current_lt _ id hid (by simpa using hc)
    · simpa using hc
    · simpa using hc
  refine ⟨hcur, ?_, ?_⟩
  · rcases hrs with e | ⟨e, _⟩
    · rw [e]; exact hlt
    · rw [e]; exact Nat.or_lt_two_pow (by simpa using hlt) (one_shiftLeft_lt_16 id hid)
  · intro k hk hbit
    by_cases hki : k = id
    · subst hki
      rw [hen]
      rcases hrs with e | ⟨_, e⟩
      · rw [e] at hbit
        by_contra hv
        exact hok ⟨by simpa using hv, hbit⟩
      · exact e
    · rw [(writeCntH_other C s id k v hki).2]
      apply harm k hk
      rw [← (writeCntH_other C s id k v hki).1]
      exact hbit

theorem armed_step (C : Consts) (B : Bus) (s : DMAController) (op : Op)
    (hop : op.keepsArmed s = true) (h : Armed s) : Armed (step C B s op) := by
  cases op with
  | run cpu => exact armed_run C B s cpu h
  | hblank =>
    show Armed (TriggerHBlankDMA s)
    unfold TriggerHBlankDMA
    simp only []
    split_ifs with hp
    · exact armed_trigger_mark s _ h hp
    · exact h
  | vblank =>
    show Armed (TriggerVBlankDMA s)
    unfold TriggerVBlankDMA
    simp only []
    split_ifs with hp
    · exact armed_trigger_mark s _ h hp
    · exact h
  | mark id => simp [Op.keepsArmed] at hop
  | write id offset v =>
    show Armed (Write C s id offset v)
    simp only [Op.keepsArmed, Bool.and_eq_true, decide_eq_true_eq, Bool.not_eq_true',
      Bool.and_eq_false_imp, Bool.not_eq_false'] at hop
    obtain ⟨hid, hok⟩ := hop
    by_cases ho : offset = 11
    · subst ho
      refine armed_writeCntH C s id v hid ?_ h
      intro ⟨h1, h2⟩
      have := hok ⟨rfl, h1⟩
      rw [h2] at this
      cases this
    · obtain ⟨h1, h2, _⟩ := write_other_offset_frame C s id offset v ho
      exact armed_congr s _ h1 h2 (write_other_offset C s id offset v ho).2 h

theorem armed_exec (C : Consts) (B : Bus) (ops : List Op) :
    ∀ s : DMAController, allKeepArmed C B s ops = true → Armed s →
      Armed (exec C B s ops) := by
  induction ops with
  | nil => intro s _ h; exact h
  | cons op rest ih =>
    intro s hall h
    simp only [allKeepArmed, Bool.and_eq_true] at hall
    exact ih (step C B s op) hall.2 (armed_step C B s op hall.1 h)

theorem armed_reset : Armed Reset :=
  ⟨by decide, by decide, fun id _ hbit => by
    have : Reset.dma_run_set.testBit id = false := Nat.zero_testBit id
    rw [this] at hbit
    cases hbit⟩

/-- C18 (amended): in every state reached from `Reset` by a sequence of register
writes to channels `0..3`, blank triggers and `Run` in which no control-high
write with bit 7 clear is made to a channel whose bit is set in the run set at
the time of the write, every channel whose bit is set in the run set has its
enable flag set. -/
theorem C18_run_set_armed (C : Consts) (B : Bus) (ops : List Op)
    (hops : allKeepArmed C B Reset ops = true) :
    ∀ id, id < 4 → (exec C B Reset ops).dma_run_set.testBit id = true →
      ((exec C B Reset ops).dma id).enable = true :=
  (armed_exec C B ops Reset hops armed_reset).2.2

/-- Witness of C18 (amended): channel 0 is enabled and scheduled, its length is
rewritten, an hblank fires, channel 1 (not scheduled) gets a control-high write
with bit 7 clear, and `Run` is called without budget: channel 0 is in the run
set and enabled. -/
theorem C18_run_set_armed_witness :
    (exec gbaConsts flatBus Reset
      [Op.write 0 11 0x80, Op.write 0 8 5, Op.hblank, Op.write 1 11 0x00,
        Op.run { sampleCPU with run_until := 0 }]).dma_run_set.testBit 0 = true ∧
    ((exec gbaConsts flatBus Reset
      [Op.write 0 11 0x80, Op.write 0 8 5, Op.hblank, Op.write 1 11 0x00,
        Op.run { sampleCPU with run_until := 0 }]).dma 0).enable = true :=
  ⟨by decide,
   C18_run_set_armed gbaConsts flatBus
     [Op.write 0 11 0x80, Op.write 0 8 5, Op.hblank, Op.write 1 11 0x00,
       Op.run { sampleCPU with run_until := 0 }] (by decide) 0 (by decide) (by decide)⟩

set_option maxRecDepth 100000 in
theorem cntH_readback (c : DMAControl) :
    ∀ v, v < 256 →
      (((DMAControl.fromNat ((c.toNat &&& 1) ||| ((v &&& 1) <<< 1))).toNat >>> 1) |||
        ((DMASize.fromNat ((v >>> 2) &&& 1)).toNat <<< 2) |||
        ((DMATime.fromNat ((v >>> 4) &&& 3)).toNat <<< 4) |||
        (if asBool (v &&& 2) then 2 else 0) |||
        (if asBool (v &&& 8) then 8 else 0) |||
        (if asBool (v &&& 64) then 64 else 0) |||
        (if asBool (v &&& 128) then 128 else 0)) % 256 = v := by
  cases c <;> decide

set_option maxRecDepth 100000 in
theorem cntL_readback (c : DMAControl) :
    ∀ v, v < 256 →
      (((DMAControl.fromNat ((v >>> 5) &&& 3)).toNat <<< 5) |||
        ((DMAControl.fromNat ((c.toNat &&& 2) ||| (v >>> 7))).toNat <<< 7)) % 256
        = v &&& 0xE0 := by
  cases c <;> decide

theorem src_cntl_lo_hi (c : DMAControl) :
    ∀ a, a < 2 → ∀ b, b < 2 →
      (DMAControl.fromNat
        (((DMAControl.fromNat ((c.toNat &&& 2) ||| a)).toNat &&& 1) ||| (b <<< 1))).toNat
        = 2 * b + a ∧
      (DMAControl.fromNat
        (((DMAControl.fromNat ((c.toNat &&& 1) ||| (b <<< 1))).toNat &&& 2) ||| a)).toNat
        = 2 * b + a := by
  cases c <;> decide

theorem writeCntH_dma_cases (C : Consts) (s : DMAController) (id v : Nat) :
    (WriteCntH C s id v).dma id = decodeCntH (s.dma id) v ∨
    (WriteCntH C s id v).dma id = latch C id (decodeCntH (s.dma id) v) := by
  unfold WriteCntH
  simp only []
  split_ifs
  · right; simp
  · right; simp
  · left; simp

theorem write10_dma (C : Consts) (s : DMAController) (id v : Nat) :
    (Write C s id 10 v).dma id =
      { s.dma id with
        dst_cntl := DMAControl.fromNat ((v >>> 5) &&& 3),
        src_cntl := DMAControl.fromNat (((s.dma id).src_cntl.toNat &&& 2) ||| (v >>> 7)) } := by
  show (setDMA s id _).dma id = _
  rw [setDMA_dma_same]

theorem write11_src_cntl (C : Consts) (s : DMAController) (id v : Nat) :
    ((Write C s id 11 v).dma id).src_cntl =
      DMAControl.fromNat (((s.dma id).src_cntl.toNat &&& 1) ||| ((v &&& 1) <<< 1)) := by
  show ((WriteCntH C s id v).dma id).src_cntl = _
  rcases writeCntH_dma_cases C s id v with e | e <;> rw [e] <;> rfl

/-- C19: for every channel and byte `v`, `Read` at offset 11 right after `Write`
of `v` at offset 11 returns `v`, and `Read` at offset 10 right after `Write` of
`v` at offset 10 returns `v AND 0xE0`; and after a write of `lo` at offset 10 and
of `hi` at offset 11, in either order, the source control of the channel has the
value `2 * (hi AND 1) + (lo >> 7)`. -/
theorem C19_control_round_trip (C : Consts) (s : DMAController) (id v : Nat) (hv : v < 256) :
    Read (Write C s id 11 v) id 11 = v ∧
    Read (Write C s id 10 v) id 10 = v &&& 0xE0 ∧
    ∀ lo hi, lo < 256 → hi < 256 →
      ((Write C (Write C s id 10 lo) id 11 hi).dma id).src_cntl.toNat
        = 2 * (hi &&& 1) + (lo >>> 7) ∧
      ((Write C (Write C s id 11 hi) id 10 lo).dma id).src_cntl.toNat
        = 2 * (hi &&& 1) + (lo >>> 7) := by
  refine ⟨?_, ?_, ?_⟩
  · have h := cntH_readback (s.dma id).src_cntl v hv
    show Read (WriteCntH C s id v) id 11 = v
    unfold Read
    simp only []
    rcases writeCntH_dma_cases C s id v with e | e <;> rw [e] <;> exact h
  · have h := cntL_readback (s.dma id).src_cntl v hv
    unfold Read
    simp only []
    rw [write10_dma]
    exact h
  · intro lo hi hlo hhi
    have ha : lo >>> 7 < 2 := by
      rw [Nat.shiftRight_eq_div_pow]
      omega
    have hb : hi &&& 1 < 2 := by
      rw [Nat.and_one_is_mod]
      omega
    obtain ⟨h1, h2⟩ := src_cntl_lo_hi (s.dma id).src_cntl _ ha _ hb
    constructor
    · rw [write11_src_cntl, write10_dma]
      exact h1
    · rw [write10_dma]
      show (DMAControl.fromNat
        ((((Write C s id 11 hi).dma id).src_cntl.toNat &&& 2) ||| (lo >>> 7))).toNat = _
      rw [write11_src_cntl]
      exact h2

/-- Witness of C19: the byte `0xA5` written to the control-high register of
channel 3 of the drain scenario reads back, and `0xFF` written to control-low
reads back as `0xE0`. -/
theorem C19_control_round_trip_witness :
    Read (Write gbaConsts drainScenario 3 11 0xA5) 3 11 = 0xA5 ∧
    Read (Write gbaConsts drainScenario 3 10 0xFF) 3 10 = 0xE0 :=
  ⟨(C19_control_round_trip gbaConsts drainScenario 3 0xA5 (by decide)).1,
   (C19_control_round_trip gbaConsts drainScenario 3 0xFF (by decide)).2.1.trans (by decide)⟩

theorem shiftLeft_255_lt (w sh : Nat) (hsh : sh + 8 ≤ w) : 255 <<< sh < 2 ^ w := by
  rw [Nat.shiftLeft_eq]
  calc 255 * 2 ^ sh < 2 ^ 8 * 2 ^ sh :=
        Nat.mul_lt_mul_of_pos_right (by norm_num) (Nat.two_pow_pos sh)
    _ = 2 ^ (8 + sh) := (Nat.pow_add 2 8 sh).symm
    _ ≤ 2 ^ w := Nat.pow_le_pow_right (by norm_num) (by omega)

theorem testBit_byte_high (v k : Nat) (hv : v < 256) (hk : 8 ≤ k) : v.testBit k = false :=
  Nat.testBit_lt_two_pow (Nat.lt_of_lt_of_le hv (by
    calc 256 = 2 ^ 8 := by norm_num
      _ ≤ 2 ^ k := Nat.pow_le_pow_right (by norm_num) hk))

/-- The byte-lane merge `(x & ~(0xFF << sh)) | (v << sh)` in a field of `w` bits:
the eight bits from `sh` on are those of the byte `v`, the other bits of the
field are those of `x`. -/
theorem lane_testBit (w x v sh j : Nat) (hv : v < 256) (hsh : sh + 8 ≤ w) :
    ((x &&& (2 ^ w - (255 <<< sh + 1))) ||| (v <<< sh)).testBit j =
      if sh ≤ j ∧ j < sh + 8 then v.testBit (j - sh) else (decide (j < w) && x.testBit j) := by
  rw [Nat.testBit_or, Nat.testBit_and, Nat.testBit_two_pow_sub_succ (shiftLeft_255_lt w sh hsh),
    Nat.testBit_shiftLeft, Nat.testBit_shiftLeft,
    show (255 : Nat) = 2 ^ 8 - 1 by norm_num, Nat.testBit_two_pow_sub_one]
  by_cases h1 : sh ≤ j
  · by_cases h2 : j < sh + 8
    · have h3 : j - sh < 8 := by omega
      have h4 : j < w := by omega
      simp [h1, h2, h3, h4]
    · have h3 : ¬ j - sh < 8 := by omega
      have h5 : v.testBit (j - sh) = false := testBit_byte_high v _ hv (by omega)
      simp [h1, h2, h3, h5, Bool.and_comm]
  · have h2 : ¬ j ≥ sh := h1
    simp [h1, h2, Bool.and_comm]

theorem write_src_lane (C : Consts) (s : DMAController) (id v k : Nat) (hk : k < 4) :
    Write C s id (k : Int) v =
      setDMA s id { s.dma id with
        src_addr := ((s.dma id).src_addr &&& (2 ^ 32 - (255 <<< (8 * k) + 1))) |||
          (v <<< (8 * k)) } := by
  interval_cases k <;> rfl

theorem write_dst_lane (C : Consts) (s : DMAController) (id v k : Nat) (hk : k < 4) :
    Write C s id ((4 + k : Nat) : Int) v =
      setDMA s id { s.dma id with
        dst_addr := ((s.dma id).dst_addr &&& (2 ^ 32 - (255 <<< (8 * k) + 1))) |||
          (v <<< (8 * k)) } := by
  interval_cases k <;> rfl

theorem write_len_lane (C : Consts) (s : DMAController) (id v k : Nat) (hk : k < 2) :
    Write C s id ((8 + k : Nat) : Int) v =
      setDMA s id { s.dma id with
        length := ((s.dma id).length &&& (2 ^ 16 - (255 <<< (8 * k) + 1))) |||
          (v <<< (8 * k)) } := by
  interval_cases k <;> rfl

/-- After a sequence of writes of the bytes `b k` to the source-address lanes
`k` of a channel, every lane written holds its byte, the lanes not written keep
their bits, and no bit beyond the 32-bit field is set. -/
theorem fold_src_bits (C : Consts) (id : Nat) (b : Nat → Nat) (hb : ∀ k, b k < 256) :
    ∀ (l : List Nat) (s : DMAController), (∀ k ∈ l, k < 4) →
      (∀ j, j < 32 →
        ((l.foldl (fun (t : DMAController) (k : Nat) => Write C t id (k : Int) (b k)) s).dma id).src_addr.testBit j =
          if j / 8 ∈ l then (b (j / 8)).testBit (j % 8)
          else (s.dma id).src_addr.testBit j) ∧
      (l ≠ [] → ∀ j, 32 ≤ j →
        ((l.foldl (fun (t : DMAController) (k : Nat) => Write C t id (k : Int) (b k)) s).dma id).src_addr.testBit j
          = false) := by
  intro l
  induction l with
  | nil =>
    intro s _
    exact ⟨fun j _ => by simp, fun h => absurd rfl h⟩
  | cons k0 rest ih =>
    intro s hall
    have hk0 : k0 < 4 := hall k0 (List.mem_cons_self _ _)
    obtain ⟨ih1, ih2⟩ := ih (Write C s id (k0 : Int) (b k0))
      (fun k hk => hall k (List.mem_cons_of_mem _ hk))
    have hs1 : ∀ j, ((Write C s id (k0 : Int) (b k0)).dma id).src_addr.testBit j =
        if 8 * k0 ≤ j ∧ j < 8 * k0 + 8 then (b k0).testBit (j - 8 * k0)
        else (decide (j < 32) && (s.dma id).src_addr.testBit j) := by
      intro j
      rw [write_src_lane C s id (b k0) k0 hk0, setDMA_dma_same]
      exact lane_testBit 32 _ (b k0) (8 * k0) j (hb k0) (by omega)
    simp only [List.foldl_cons]
    constructor
    · intro j hj
      rw [ih1 j hj]
      by_cases hm : j / 8 ∈ rest
      · simp [hm]
      · rw [if_neg hm, hs1 j]
        by_cases hk : j / 8 = k0
        · have hc : 8 * k0 ≤ j ∧ j < 8 * k0 + 8 := by omega
          have e : j - 8 * k0 = j % 8 := by omega
          rw [if_pos hc, e, if_pos (by rw [hk]; exact List.mem_cons_self _ _), hk]
        · have hc : ¬ (8 * k0 ≤ j ∧ j < 8 * k0 + 8) := by omega
          have hm2 : ¬ j / 8 ∈ k0 :: rest := by
            intro h
            rcases List.mem_cons.mp h with h | h
            · exact hk h
            · exact hm h
          rw [if_neg hc, if_neg hm2]
          simp [hj]
    · intro _ j hj
      by_cases hr : rest = []
      · subst hr
        simp only [List.foldl_nil]
        rw [hs1 j]
        have hc : ¬ (8 * k0 ≤ j ∧ j < 8 * k0 + 8) := by omega
        have hj' : ¬ j < 32 := by omega
        rw [if_neg hc]
        simp [hj']
      · exact ih2 hr j hj

theorem bytes_testBit (b0 b1 b2 b3 j : Nat) (h0 : b0 < 256) (h1 : b1 < 256) (h2 : b2 < 256) :
    (b0 + 2 ^ 8 * b1 + 2 ^ 16 * b2 + 2 ^ 24 * b3).testBit j =
      if j < 8 then b0.testBit j
      else if j < 16 then b1.testBit (j - 8)
      else if j < 24 then b2.testBit (j - 16)
      else b3.testBit (j - 24) := by
  have e : b0 + 2 ^ 8 * b1 + 2 ^ 16 * b2 + 2 ^ 24 * b3
      = 2 ^ 8 * (2 ^ 8 * (2 ^ 8 * b3 + b2) + b1) + b0 := by ring
  rw [e, Nat.testBit_mul_pow_two_add _ (by simpa using h0),
    Nat.testBit_mul_pow_two_add _ (by simpa using h1),
    Nat.testBit_mul_pow_two_add _ (by simpa using h2)]
  by_cases c1 : j < 8
  · simp [c1]
  · by_cases c2 : j < 16
    · have : j - 8 < 8 := by omega
      simp [c1, c2, this]
    · by_cases c3 : j < 24
      · have a1 : ¬ j - 8 < 8 := by omega
        have a2 : j - 8 - 8 < 8 := by omega
        have a3 : j - 8 - 8 = j - 16 := by omega
        rw [if_neg c1, if_neg c1, if_neg a1, if_neg c2, if_pos a2, if_pos c3, a3]
      · have a1 : ¬ j - 8 < 8 := by omega
        have a2 : ¬ j - 8 - 8 < 8 := by omega
        have a3 : j - 8 - 8 - 8 = j - 24 := by omega
        rw [if_neg c1, if_neg c1, if_neg a1, if_neg c2, if_neg a2, if_neg c3, a3]

/-- C11: for every channel and byte `v`, a write at offset `k` in `0..3`
replaces exactly the bits `8k..8k+7` of the 32-bit source address by `v`, a
write at offset `4 + k` does the same to the destination address, and a write at
offset `8 + k` (`k` in `0..1`) to the 16-bit length; each changes nothing else
in the controller. Hence after writing bytes `b 0 .. b 3` to the offsets `0..3`
in any order, the source address is `b 0 + 2^8 * b 1 + 2^16 * b 2 + 2^24 * b 3`. -/
theorem C11_byte_lane_merge (C : Consts) (s : DMAController) (id v : Nat) (hv : v < 256) :
    (∀ k : Nat, k < 4 → (s.dma id).src_addr < 2 ^ 32 →
      Write C s id (k : Int) v =
        setDMA s id { s.dma id with src_addr := ((Write C s id (k : Int) v).dma id).src_addr } ∧
      ∀ j, ((Write C s id (k : Int) v).dma id).src_addr.testBit j =
        if 8 * k ≤ j ∧ j < 8 * k + 8 then v.testBit (j - 8 * k)
        else (s.dma id).src_addr.testBit j) ∧
    (∀ k : Nat, k < 4 → (s.dma id).dst_addr < 2 ^ 32 →
      Write C s id ((4 + k : Nat) : Int) v =
        setDMA s id { s.dma id with
          dst_addr := ((Write C s id ((4 + k : Nat) : Int) v).dma id).dst_addr } ∧
      ∀ j, ((Write C s id ((4 + k : Nat) : Int) v).dma id).dst_addr.testBit j =
        if 8 * k ≤ j ∧ j < 8 * k + 8 then v.testBit (j - 8 * k)
        else (s.dma id).dst_addr.testBit j) ∧
    (∀ k : Nat, k < 2 → (s.dma id).length < 2 ^ 16 →
      Write C s id ((8 + k : Nat) : Int) v =
        setDMA s id { s.dma id with
          length := ((Write C s id ((8 + k : Nat) : Int) v).dma id).length } ∧
      ∀ j, ((Write C s id ((8 + k : Nat) : Int) v).dma id).length.testBit j =
        if 8 * k ≤ j ∧ j < 8 * k + 8 then v.testBit (j - 8 * k)
        else (s.dma id).length.testBit j) ∧
    (∀ (b : Nat → Nat) (l : List Nat), (∀ k, b k < 256) → l.Perm [0, 1, 2, 3] →
      ((l.foldl (fun (t : DMAController) (k : Nat) => Write C t id (k : Int) (b k)) s).dma
        id).src_addr = b 0 + 2 ^ 8 * b 1 + 2 ^ 16 * b 2 + 2 ^ 24 * b 3) := by
  have hfield : ∀ (w x j : Nat), x < 2 ^ w → (decide (j < w) && x.testBit j) = x.testBit j := by
    intro w x j hx
    by_cases hj : j < w
    · simp [hj]
    · have : x.testBit j = false :=
        Nat.testBit_lt_two_pow (Nat.lt_of_lt_of_le hx
          (Nat.pow_le_pow_right (by norm_num) (not_lt.mp hj)))
      simp [this]
  refine ⟨?_, ?_, ?_, ?_⟩
  · intro k hk hx
    have e := write_src_lane C s id v k hk
    have ed : ((Write C s id (k : Int) v).dma id).src_addr
        = ((s.dma id).src_addr &&& (2 ^ 32 - (255 <<< (8 * k) + 1))) ||| (v <<< (8 * k)) := by
      rw [e, setDMA_dma_same]
    refine ⟨by rw [ed]; exact e, fun j => ?_⟩
    rw [ed, lane_testBit 32 _ v (8 * k) j hv (by omega), hfield 32 _ j hx]
  · intro k hk hx
    have e := write_dst_lane C s id v k hk
    have ed : ((Write C s id ((4 + k : Nat) : Int) v).dma id).dst_addr
        = ((s.dma id).dst_addr &&& (2 ^ 32 - (255 <<< (8 * k) + 1))) ||| (v <<< (8 * k)) := by
      rw [e, setDMA_dma_same]
    refine ⟨by rw [ed]; exact e, fun j => ?_⟩
    rw [ed, lane_testBit 32 _ v (8 * k) j hv (by omega), hfield 32 _ j hx]
  · intro k hk hx
    have e := write_len_lane C s id v k hk
    have ed : ((Write C s id ((8 + k : Nat) : Int) v).dma id).length
        = ((s.dma id).length &&& (2 ^ 16 - (255 <<< (8 * k) + 1))) ||| (v <<< (8 * k)) := by
      rw [e, setDMA_dma_same]
    refine ⟨by rw [ed]; exact e, fun j => ?_⟩
    rw [ed, lane_testBit 16 _ v (8 * k) j hv (by omega), hfield 16 _ j hx]
  · intro b l hb hperm
    have hmem : ∀ k, k ∈ l ↔ k ∈ [0, 1, 2, 3] := fun k => hperm.mem_iff
    have hall : ∀ k ∈ l, k < 4 := by
      intro k hk
      have := (hmem k).mp hk
      simp at this
      omega
    have hne : l ≠ [] := by
      intro h
      have := (hmem 0).mpr (by simp)
      rw [h] at this
      cases this
    obtain ⟨f1, f2⟩ := fold_src_bits C id b hb l s hall
    apply Nat.eq_of_testBit_eq
    intro j
    rw [bytes_testBit (b 0) (b 1) (b 2) (b 3) j (hb 0) (hb 1) (hb 2)]
    by_cases hj : j < 32
    · have hin : j / 8 ∈ l := (hmem (j / 8)).mpr (by
        have : j / 8 < 4 := by omega
        interval_cases h : j / 8 <;> simp)
      rw [f1 j hj, if_pos hin]
      by_cases c1 : j < 8
      · have a : j / 8 = 0 := by omega
        have a2 : j % 8 = j := by omega
        rw [if_pos c1, a, a2]
      · by_cases c2 : j < 16
        · have a : j / 8 = 1 := by omega
          have a2 : j % 8 = j - 8 := by omega
          rw [if_neg c1, if_pos c2, a, a2]
        · by_cases c3 : j < 24
          · have a : j / 8 = 2 := by omega
            have a2 : j % 8 = j - 16 := by omega
            rw [if_neg c1, if_neg c2, if_pos c3, a, a2]
          · have a : j / 8 = 3 := by omega
            have a2 : j % 8 = j - 24 := by omega
            rw [if_neg c1, if_neg c2, if_neg c3, a, a2]
    · rw [f2 hne j (not_lt.mp hj), if_neg (by omega), if_neg (by omega), if_neg (by omega)]
      exact (testBit_byte_high (b 3) _ (hb 3) (by omega)).symm

/-- Witness of C11: on channel 0 of the drain scenario (source `0x02000000`),
the byte `0xAB` written at offset 1 gives `0x0200AB00`, and the bytes `0x12`,
`0x13`, `0x14`, `0x15` written to the offsets 0..3 in the order 2, 0, 3, 1 give
`0x15141312`. -/
theorem C11_byte_lane_merge_witness :
    (drainScenario.dma 0).src_addr = 0x02000000 ∧
    Write gbaConsts drainScenario 0 1 0xAB =
      setDMA drainScenario 0 { drainScenario.dma 0 with src_addr := 0x0200AB00 } ∧
    (([2, 0, 3, 1].foldl
      (fun (t : DMAController) (k : Nat) => Write gbaConsts t 0 (k : Int) ((k + 0x12) % 256))
      drainScenario).dma 0).src_addr = 0x15141312 :=
  have h := C11_byte_lane_merge gbaConsts drainScenario 0 0xAB (by decide)
  ⟨by decide, (h.1 1 (by decide) (by decide)).1,
   (h.2.2.2 (fun k => (k + 0x12) % 256) [2, 0, 3, 1]
      (fun k => Nat.mod_lt _ (by decide)) (by decide)).trans (by decide)⟩

/-- Witness of C13: for the bitset `0b1100` the table returns channel 2. -/
theorem C13_table_lowest_set_bit_witness :
    ∃ i : Nat, i < 4 ∧ g_dma_from_bitset.get? 12 = some (i : Int) ∧ dmaFromBitset 12 = (i : Int) ∧
      Nat.testBit 12 i = true ∧ (∀ j, j < i → Nat.testBit 12 j = false) ∧
      ∀ k, k < 4 → Nat.testBit 12 k = true → (∀ j, j < k → Nat.testBit 12 j = false) → k = i :=
  C13_table_lowest_set_bit.2.2.2 12 (by decide) (by decide)

end NanoboyAdvance
